import Mathlib

/-!
Shallow embedding of the two command-line solvers of this repository:

* `src/part2_assignment/belts/main.cpp`   — function `solve_belts`
* `src/part2_assignment/factory/main.cpp` — function `solve_factory`

Modelling conventions.

* C++ `double` arithmetic is modelled by `ℚ` (the spec's idealized real
  arithmetic).  The single tolerance `1e-9` of both tools is `tolerance`.
* `nlohmann::json` values are modelled by the inductive `Json`.  A non-empty
  brace initializer list whose elements are all two-element lists starting
  with a string is an *object* in nlohmann; otherwise it is an array.  A
  nested empty brace clause `{}` value-initializes the `json_ref` element
  through its default constructor and therefore denotes JSON *null*.
  Keys of nlohmann objects are kept in insertion order here; the C++ library
  stores them sorted, but no statement below depends on key order.
* `std::map` / `std::set` are modelled by association lists / sorted
  duplicate-free string lists; iteration of a `std::set<std::string>` is in
  sorted order, which `sortedInsert` reproduces.
* The LP and max-flow solvers are the black-box oracles of the spec; they are
  modelled as records of the values the code reads back from them (status,
  primal values, duals, activities, per-arc flows, source-side min cut).
-/

/-- The numeric tolerance `1e-9` used by both tools (`const double tolerance`). -/
def tolerance : ℚ := 1 / 1000000000

/-- The sentinel machine cost `1e30` for recipes with effective rate `≤ 1e-9`. -/
def bigCost : ℚ := 10 ^ (30 : ℕ)

/-- Model of an `nlohmann::json` value. -/
inductive Json where
  | null : Json
  | str : String → Json
  | num : ℚ → Json
  | bool : Bool → Json
  | arr : List Json → Json
  | obj : List (String × Json) → Json
deriving Repr

namespace Json

/-- Decidable equality for `Json` (hand rolled because of the nested lists). -/
def beq : Json → Json → Bool
  | null, null => true
  | str a, str b => a = b
  | num a, num b => a = b
  | bool a, bool b => a = b
  | arr a, arr b => beqList a b
  | obj a, obj b => beqObj a b
  | _, _ => false
where
  beqList : List Json → List Json → Bool
    | [], [] => true
    | x :: xs, y :: ys => beq x y && beqList xs ys
    | _, _ => false
  beqObj : List (String × Json) → List (String × Json) → Bool
    | [], [] => true
    | (k, x) :: xs, (l, y) :: ys => k = l && beq x y && beqObj xs ys
    | _, _ => false

mutual

/-- Soundness of `beq`, as a definition so the decidability instance below can
use it. -/
def beq_iff : ∀ a b : Json, beq a b = true ↔ a = b
  | null, b => by cases b <;> simp [beq]
  | str a, b => by cases b <;> simp [beq]
  | num a, b => by cases b <;> simp [beq]
  | bool a, b => by cases b <;> simp [beq]
  | arr a, b => by
      cases b <;> simp [beq]
      exact beqList_iff a _
  | obj a, b => by
      cases b <;> simp [beq]
      exact beqObj_iff a _

/-- Soundness of `beq.beqList`. -/
def beqList_iff : ∀ xs ys : List Json, beq.beqList xs ys = true ↔ xs = ys
  | [], ys => by cases ys <;> simp [beq.beqList]
  | x :: xs, ys => by
      cases ys with
      | nil => simp [beq.beqList]
      | cons y ys => simp [beq.beqList, beq_iff x y, beqList_iff xs ys]

/-- Soundness of `beq.beqObj`. -/
def beqObj_iff : ∀ xs ys : List (String × Json), beq.beqObj xs ys = true ↔ xs = ys
  | [], ys => by cases ys <;> simp [beq.beqObj]
  | (k, x) :: xs, ys => by
      cases ys with
      | nil => simp [beq.beqObj]
      | cons p ys =>
          cases p with
          | mk l y => simp [beq.beqObj, beq_iff x y, beqObj_iff xs ys, and_assoc]

end

instance : DecidableEq Json := fun a b => decidable_of_iff (beq a b = true) (beq_iff a b)

/-- Field lookup in a JSON object (`j["key"]` read access). -/
def getField : Json → String → Option Json
  | obj l, k => l.lookup k
  | _, _ => none

/-- Whether a JSON value is an array. -/
def isArr : Json → Bool
  | arr _ => true
  | _ => false

end Json

/-- Insertion into a sorted duplicate-free list of strings: the model of
`std::set<std::string>::insert`. -/
def sortedInsert (a : String) : List String → List String
  | [] => [a]
  | b :: t => if a = b then b :: t else if a < b then a :: b :: t else b :: sortedInsert a t

/-- Collect a list of strings into a sorted duplicate-free list, the model of
building a `std::set<std::string>` by repeated insertion. -/
def sortedDedup (l : List String) : List String :=
  l.foldl (fun acc s => sortedInsert s acc) []

namespace Belts

/-- An original edge of the belts input (`struct Edge` in `belts/main.cpp`).
The C++ fields `from` and `to` are Lean keywords, hence `from_`, `to_`. -/
structure BEdge where
  from_ : String
  to_ : String
  lower_bound : ℚ
  upper_bound : ℚ
deriving Repr, DecidableEq

/-- A parsed belts instance (the JSON document read from stdin).  Association
lists model JSON objects / `std::map`s; keys are unique. -/
structure BeltsInput where
  sources : List (String × ℚ)
  sink : String
  node_caps : List (String × ℚ)
  edges : List BEdge
deriving Repr

/-- An arc of the `SimpleMaxFlow` graph; its position in the arc list is the
index returned by `AddArcWithCapacity`. -/
structure Arc where
  tail : ℕ
  head : ℕ
  cap : ℚ
deriving Repr, DecidableEq

/-- Status values of `SimpleMaxFlow::Solve`. -/
inductive MFStatus where
  | OPTIMAL
  | POSSIBLE_OVERFLOW
  | BAD_INPUT
  | BAD_RESULT
deriving Repr, DecidableEq

/-- What `solve_belts` reads back from the max-flow oracle: the solve status,
`OptimalFlow()`, `Flow(arc)` per arc index, and `GetSourceSideMinCut`. -/
structure MaxFlowOracle where
  status : MFStatus
  optimalFlow : ℚ
  flow : ℕ → ℚ
  sourceSideMinCut : List ℕ

/-- Endpoint names of a list of edges, in traversal order. -/
def edgeEndpoints (l : List BEdge) : List String :=
  l.foldr (fun e acc => e.from_ :: e.to_ :: acc) []

/-- `all_node_names`: the `std::set<std::string>` collecting source names, the
sink, all edge endpoints and all capped node names (lines 56–67). -/
def allNodeNames (inp : BeltsInput) : List String :=
  sortedDedup (inp.sources.map Prod.fst ++ [inp.sink]
    ++ edgeEndpoints inp.edges ++ inp.node_caps.map Prod.fst)

/-- State of the node-index assignment loop: `node_index_counter`,
`node_to_in_index`, `node_to_out_index`, `index_to_name_map`, and the node-cap
arcs added along the way.  `s_star = 0`, `t_star = 1`. -/
structure NodeMaps where
  counter : ℕ
  inMap : List (String × ℕ)
  outMap : List (String × ℕ)
  idxName : List String
  arcs : List Arc
deriving Repr

/-- Total lookup in a name-to-index map (all names used are in the map by
construction, so the default is never exercised). -/
def lookupD (m : List (String × ℕ)) (k : String) : ℕ := (m.lookup k).getD 0

/-- Lookup in a name-to-rational map, defaulting to 0. -/
def lookupQ (m : List (String × ℚ)) (k : String) : ℚ := (m.lookup k).getD 0

/-- The node-split loop (lines 84–107): iterate `all_node_names` in sorted
order; every node gets an `in` index; a capped node that is not a source and
not the sink also gets a distinct `out` index plus a `v_in → v_out` arc of
capacity `cap(v)`; otherwise `out = in`. -/
def nodeMaps (inp : BeltsInput) : NodeMaps :=
  (allNodeNames inp).foldl
    (fun st name =>
      let in_idx := st.counter
      let st1 : NodeMaps :=
        { st with counter := st.counter + 1,
                  idxName := st.idxName ++ [name],
                  inMap := st.inMap ++ [(name, in_idx)] }
      if (inp.node_caps.lookup name).isSome && (inp.sources.lookup name).isNone
          && name != inp.sink then
        { st1 with counter := st1.counter + 1,
                   idxName := st1.idxName ++ [name],
                   outMap := st1.outMap ++ [(name, st1.counter)],
                   arcs := st1.arcs ++ [⟨in_idx, st1.counter, lookupQ inp.node_caps name⟩] }
      else
        { st1 with outMap := st1.outMap ++ [(name, in_idx)] })
    ⟨2, [], [], ["s_star", "t_star"], []⟩

/-- `total_supply`: the sum of all source supplies (lines 119–123). -/
def totalSupply (inp : BeltsInput) : ℚ :=
  inp.sources.foldl (fun s p => s + p.2) 0

/-- Insertion-or-addition into the `std::map<int, double> node_balance`,
keeping keys sorted as the C++ map does. -/
def addAt : List (ℕ × ℚ) → ℕ → ℚ → List (ℕ × ℚ)
  | [], k, v => [(k, v)]
  | (k1, v1) :: t, k, v =>
    if k = k1 then (k1, v1 + v) :: t
    else if k < k1 then (k, v) :: (k1, v1) :: t
    else (k1, v1) :: addAt t k v

/-- Balances after the supply and sink contributions (lines 119–126):
`B[s_out] -= σ` for every source, then `B[sink_in] += total_supply`. -/
def balance0 (inp : BeltsInput) : List (ℕ × ℚ) :=
  let nm := nodeMaps inp
  let b := inp.sources.foldl (fun b p => addAt b (lookupD nm.outMap p.1) (-p.2)) []
  addAt b (lookupD nm.inMap inp.sink) (totalSupply inp)

/-- State threaded through the edge loop (lines 129–160): the solver's arc
list, the node balances, and the original edges paired with their recorded
`arc_index`. -/
structure EdgePassState where
  arcs : List Arc
  balance : List (ℕ × ℚ)
  indexed : List (BEdge × ℕ)
deriving Repr

/-- `hi - lo < -tolerance`: the pre-check condition of line 135. -/
def badEdge (e : BEdge) : Prop := e.upper_bound - e.lower_bound < -tolerance

instance : DecidablePred badEdge := fun e => by
  unfold badEdge; infer_instance

/-- One iteration of the edge loop.  The pre-check fires before the arc is
added; otherwise the arc `(u_out → v_in, hi − lo)` is added (its index is the
current number of arcs), and the balances are shifted by the lower bound. -/
def edgeStep (nm : NodeMaps) (st : EdgePassState) (e : BEdge) :
    Except BEdge EdgePassState :=
  let u := lookupD nm.outMap e.from_
  let v := lookupD nm.inMap e.to_
  if badEdge e then Except.error e
  else Except.ok
    { arcs := st.arcs ++ [⟨u, v, e.upper_bound - e.lower_bound⟩],
      balance := addAt (addAt st.balance u (-e.lower_bound)) v e.lower_bound,
      indexed := st.indexed ++ [(e, st.arcs.length)] }

/-- The edge loop itself; `Except.error e` models the early return of the
pre-check path at the first offending edge. -/
def edgePass (inp : BeltsInput) : Except BEdge EdgePassState :=
  inp.edges.foldlM (edgeStep (nodeMaps inp))
    ⟨(nodeMaps inp).arcs, balance0 inp, []⟩

/-- The pure version of `edgeStep` (the non-error branch). -/
def edgeStepPure (nm : NodeMaps) (st : EdgePassState) (e : BEdge) : EdgePassState :=
  let u := lookupD nm.outMap e.from_
  let v := lookupD nm.inMap e.to_
  { arcs := st.arcs ++ [⟨u, v, e.upper_bound - e.lower_bound⟩],
    balance := addAt (addAt st.balance u (-e.lower_bound)) v e.lower_bound,
    indexed := st.indexed ++ [(e, st.arcs.length)] }

/-- The edge loop ignoring the pre-check, used to state what `edgePass`
produces when no edge is bad. -/
def edgePassPure (inp : BeltsInput) : EdgePassState :=
  inp.edges.foldl (edgeStepPure (nodeMaps inp))
    ⟨(nodeMaps inp).arcs, balance0 inp, []⟩

/-- `total_demand_from_s_star`: the sum of the balances exceeding the
tolerance, accumulated by the loop of lines 162–173. -/
def demandSum (bal : List (ℕ × ℚ)) : ℚ :=
  bal.foldl (fun s p => if p.2 > tolerance then s + p.2 else s) 0

/-- `total_demand_from_s_star` of an instance with no bad edge. -/
def totalDemandFromSStar (inp : BeltsInput) : ℚ :=
  demandSum (edgePassPure inp).balance

/-- The `s*`/`t*` arcs added by the loop of lines 162–173. -/
def starArcs (bal : List (ℕ × ℚ)) : List Arc :=
  bal.foldl (fun acc p =>
    if p.2 > tolerance then acc ++ [⟨0, p.1, p.2⟩]
    else if p.2 < -tolerance then acc ++ [⟨p.1, 1, -p.2⟩]
    else acc) []

/-- Output of the pre-check infeasibility path (lines 136–151).  Each nested
non-empty brace initializer whose entries are string-value pairs builds an
nlohmann *object*; in particular the value bound to `"tight_edges"` is a
single object with fields `from`, `to`, `flow_needed` — not an array — while
the empty brace clauses bound to `"cut_reachable"` and `"tight_nodes"`
value-initialize their `json_ref` and therefore denote JSON null. -/
def precheckJson (totalDemandAtSink : ℚ) (e : BEdge) : Json :=
  Json.obj [
    ("status", Json.str "infeasible"),
    ("cut_reachable", Json.null),
    ("deficit", Json.obj [
      ("demand_balance", Json.num totalDemandAtSink),
      ("tight_nodes", Json.null),
      ("tight_edges", Json.obj [
        ("from", Json.str e.from_),
        ("to", Json.str e.to_),
        ("flow_needed", Json.num (e.upper_bound - e.lower_bound))])])]

/-- Output when `Solve` does not return `OPTIMAL` (lines 177–189).  The
nested empty brace clauses bound to `"cut_reachable"`, `"tight_nodes"` and
`"tight_edges"` value-initialize their `json_ref` and denote JSON null. -/
def solveFailJson (totalDemand : ℚ) : Json :=
  Json.obj [
    ("status", Json.str "infeasible"),
    ("cut_reachable", Json.null),
    ("deficit", Json.obj [
      ("demand_balance", Json.num totalDemand),
      ("tight_nodes", Json.null),
      ("tight_edges", Json.null)])]

/-- `get_name_from_index` (lines 77–82). -/
def nameOfIndex (idxName : List String) (i : ℕ) : String :=
  idxName.getD i "INVALID_INDEX"

/-- `SimpleMaxFlow::NumNodes()`: one past the largest node index referenced by
an arc. -/
def solverNumNodes (arcs : List Arc) : ℕ :=
  arcs.foldl (fun n a => max n (max a.tail a.head + 1)) 0

/-- The tight-constraint scan of the min-cut certificate (lines 212–247):
for every node `u` whose name is cut-reachable and every arc `u → v` with `v`
not reachable, the first original edge recorded with that arc index is
reported "at capacity"; otherwise, if `u` is a capped node, its name joins
`tight_nodes`. -/
def certTight (inp : BeltsInput) (nm : NodeMaps) (st : EdgePassState)
    (reachable : List String) : List String × List Json :=
  let allArcs := st.arcs ++ starArcs st.balance
  (List.range (solverNumNodes allArcs)).foldl
    (fun acc u =>
      if nameOfIndex nm.idxName u ∈ reachable then
        (List.range allArcs.length).foldl
          (fun acc arcIdx =>
            let a := allArcs.getD arcIdx ⟨0, 0, 0⟩
            if a.tail = u then
              if nameOfIndex nm.idxName a.head ∈ reachable then acc
              else
                match st.indexed.find? (fun p => p.2 = arcIdx) with
                | some p =>
                  (acc.1, acc.2 ++ [Json.obj [
                    ("from", Json.str p.1.from_),
                    ("to", Json.str p.1.to_),
                    ("flow_needed", Json.str "at capacity")]])
                | none =>
                  if (inp.node_caps.lookup (nameOfIndex nm.idxName u)).isSome then
                    (sortedInsert (nameOfIndex nm.idxName u) acc.1, acc.2)
                  else acc
            else acc)
          acc
      else acc)
    ([], [])

/-- Output of the min-cut certificate path (lines 193–252). -/
def certJson (inp : BeltsInput) (nm : NodeMaps) (st : EdgePassState)
    (o : MaxFlowOracle) (totalDemand : ℚ) : Json :=
  let reachable := (o.sourceSideMinCut.filter (fun i => i ≠ 0)).foldl
    (fun acc i => sortedInsert (nameOfIndex nm.idxName i) acc) []
  let tight := certTight inp nm st reachable
  Json.obj [
    ("status", Json.str "infeasible"),
    ("deficit", Json.obj [
      ("demand_balance", Json.num (totalDemand - o.optimalFlow)),
      ("tight_nodes", Json.arr (tight.1.map Json.str)),
      ("tight_edges", Json.arr tight.2)]),
    ("cut_reachable", Json.arr (reachable.map Json.str))]

/-- The flows-array loop of the success path (lines 260–273): each recorded
edge whose final flow `Flow(arc) + lo` exceeds the tolerance contributes one
entry, in edge order. -/
def okFlowsAux (o : MaxFlowOracle) (idx : List (BEdge × ℕ)) (acc : List Json) : List Json :=
  idx.foldl
    (fun acc p =>
      let final_flow := o.flow p.2 + p.1.lower_bound
      if final_flow > tolerance then
        acc ++ [Json.obj [
          ("from", Json.str p.1.from_),
          ("to", Json.str p.1.to_),
          ("flow", Json.num final_flow)]]
      else acc)
    acc

/-- Output of the success path (lines 255–276): `max_flow_per_min` is
`total_supply`, plus the flows array. -/
def okJson (inp : BeltsInput) (st : EdgePassState) (o : MaxFlowOracle) : Json :=
  Json.obj [
    ("status", Json.str "ok"),
    ("max_flow_per_min", Json.num (totalSupply inp)),
    ("flows", Json.arr (okFlowsAux o st.indexed []))]

/-- The whole of `solve_belts` after a successful parse: graph construction,
pre-check, oracle call, feasibility decision, and output formatting. -/
def solve_belts (inp : BeltsInput) (o : MaxFlowOracle) : Json :=
  let nm := nodeMaps inp
  match edgePass inp with
  | Except.error e => precheckJson (totalSupply inp) e
  | Except.ok st =>
    let totalDemand := demandSum st.balance
    if o.status ≠ MFStatus.OPTIMAL then solveFailJson totalDemand
    else if o.optimalFlow < totalDemand - tolerance then
      certJson inp nm st o totalDemand
    else okJson inp st o

/-- Observable behaviour of one process run: what lands on stdout, whether a
diagnostic is written to stderr, and the exit status. -/
structure ProgResult where
  outJson : Option Json
  errDiag : Bool
  exitCode : ℕ
deriving Repr, DecidableEq

/-- The `main` of `belts/main.cpp` combined with the stdin read of
`solve_belts` (lines 27–34 and 281–289).  `parsed = none` models a
`json::parse_error` thrown by `std::cin >> input`: the catch block writes the
diagnostic to stderr and plainly returns from `solve_belts`, so `main`
finishes normally with exit status 0 and nothing on stdout. -/
def beltsMain (parsed : Option BeltsInput) (o : MaxFlowOracle) : ProgResult :=
  match parsed with
  | none => ⟨none, true, 0⟩
  | some inp => ⟨some (solve_belts inp o), false, 0⟩

end Belts

namespace Factory

/-- Raw recipe data as parsed from JSON.  The JSON keys `"in"`/`"out"` are
Lean keywords, hence `inBag`/`outBag`. -/
structure RecipeIn where
  machine : String
  time_s : ℚ
  inBag : List (String × ℚ)
  outBag : List (String × ℚ)
deriving Repr, DecidableEq

/-- Optional module effect of a machine type (`modules.<machine>`). -/
structure ModuleEff where
  speed : Option ℚ
  prod : Option ℚ
deriving Repr, DecidableEq

/-- A parsed factory instance.  Association lists model the JSON objects
(`std::map`s with unique keys, listed in key order). -/
structure FactoryInput where
  machines : List (String × ℚ)
  modules : List (String × ModuleEff)
  recipes : List (String × RecipeIn)
  max_machines : List (String × ℚ)
  raw_supply : List (String × ℚ)
  target_item : String
  target_rate : ℚ
deriving Repr

/-- `struct Recipe` with its derived values (lines 17–28 and 66–111). -/
structure Recipe where
  name : String
  machine : String
  time_s : ℚ
  inBag : List (String × ℚ)
  outBag : List (String × ℚ)
  eff_crafts_per_min : ℚ
  machine_cost_per_craft : ℚ
  prod_mult : ℚ
deriving Repr, DecidableEq

/-- Lookup in a name-to-rational map, defaulting to 0. -/
def lookupQ (m : List (String × ℚ)) (k : String) : ℚ := (m.lookup k).getD 0

/-- Pre-computation of one recipe (lines 86–110): effective crafts per minute
`base_speed · (1 + mod_speed) · 60 / time_s`; machine cost per craft is its
reciprocal, or the sentinel `1e30` when the effective rate is `≤ 1e-9`; the
productivity multiplier is `1 + mod_prod`. -/
def mkRecipe (inp : FactoryInput) (name : String) (r : RecipeIn) : Recipe :=
  let base_speed := lookupQ inp.machines r.machine
  let mod_speed := match inp.modules.lookup r.machine with
    | some m => m.speed.getD 0
    | none => 0
  let mod_prod := match inp.modules.lookup r.machine with
    | some m => m.prod.getD 0
    | none => 0
  let eff := base_speed * (1 + mod_speed) * 60 / r.time_s
  { name := name, machine := r.machine, time_s := r.time_s,
    inBag := r.inBag, outBag := r.outBag,
    eff_crafts_per_min := eff,
    machine_cost_per_craft := if eff > tolerance then 1 / eff else bigCost,
    prod_mult := 1 + mod_prod }

/-- All recipes with their derived values, in map-key order. -/
def recipesOf (inp : FactoryInput) : List Recipe :=
  inp.recipes.map (fun p => mkRecipe inp p.1 p.2)

/-- `raw_items`: the keys of `limits.raw_supply_per_min` (lines 54–58). -/
def rawItems (inp : FactoryInput) : List String :=
  sortedDedup (inp.raw_supply.map Prod.fst)

/-- `all_items` before the erase of the target: raw items plus every item
mentioned by a recipe input or output (lines 54–84). -/
def allItems (inp : FactoryInput) : List String :=
  sortedDedup (inp.raw_supply.map Prod.fst
    ++ inp.recipes.foldr
        (fun p acc => p.2.inBag.map Prod.fst ++ p.2.outBag.map Prod.fst ++ acc) [])

/-- `all_items` after `all_items.erase(target_item)` (line 114). -/
def allItemsSansTarget (inp : FactoryInput) : List String :=
  (allItems inp).filter (fun i => i != inp.target_item)

/-- `intermediate_items`: non-raw items other than the target (lines 115–119). -/
def intermediateItems (inp : FactoryInput) : List String :=
  (allItemsSansTarget inp).filter (fun i => decide (i ∉ rawItems inp))

/-- LP decision variables: one `x_r` per recipe plus the Phase-1 variable `T`
(named `target_rate` in the source). -/
inductive Var where
  | recipe : String → Var
  | tvar : Var
deriving Repr, DecidableEq

/-- An `MPConstraint`: its name, bounds and coefficient map.  OR-Tools'
`SetCoefficient` *sets* (replaces) a variable's coefficient on the row. -/
structure Row where
  name : String
  lb : ℚ
  ub : ℚ
  coeffs : List (Var × ℚ)
deriving Repr, DecidableEq

/-- `SetCoefficient` on a coefficient map: replace or append. -/
def setCoeffL : List (Var × ℚ) → Var → ℚ → List (Var × ℚ)
  | [], v, c => [(v, c)]
  | (v1, c1) :: t, v, c => if v = v1 then (v, c) :: t else (v1, c1) :: setCoeffL t v c

/-- `SetCoefficient` on a row. -/
def Row.setCoeff (r : Row) (v : Var) (c : ℚ) : Row :=
  { r with coeffs := setCoeffL r.coeffs v c }

/-- Apply `SetCoefficient` to the row at index `i` of the solver's row list. -/
def updateRow : List Row → ℕ → Var → ℚ → List Row
  | [], _, _, _ => []
  | r :: t, 0, v, c => r.setCoeff v c :: t
  | r :: t, n + 1, v, c => r :: updateRow t n v c

/-- The activity of a row under a primal assignment: `Σ_v coeff(v) · x(v)`. -/
def rowActivity (r : Row) (x : Var → ℚ) : ℚ :=
  r.coeffs.foldl (fun s p => s + p.2 * x p.1) 0

/-- A row is satisfied when its activity lies within its bounds. -/
def rowOk (r : Row) (x : Var → ℚ) : Prop :=
  r.lb ≤ rowActivity r x ∧ rowActivity r x ≤ r.ub

instance (r : Row) (x : Var → ℚ) : Decidable (rowOk r x) := by
  unfold rowOk; infer_instance

/-- A built LP: the solver's rows in creation order plus the two lookup maps
`item_balance` and `machine_usage` from names to row indices, and the
objective coefficients. -/
structure LP where
  rows : List Row
  itemMap : List (String × ℕ)
  machineMap : List (String × ℕ)
  objCoeffs : List (Var × ℚ)
deriving Repr

/-- `std::map::operator[]` assignment on a name-to-index map (replace or
append); this is how `item_balance2[target_item] = ...` overwrites the map
entry of a raw target while the previously created row stays in the solver. -/
def insertReplace : List (String × ℕ) → String → ℕ → List (String × ℕ)
  | [], k, v => [(k, v)]
  | (k1, v1) :: t, k, v => if k = k1 then (k, v) :: t else (k1, v1) :: insertReplace t k v

/-- The shared constraint-population loop (Phase 1: lines 165–182, Phase 2:
lines 272–291): for each recipe, set its machine-usage coefficient (if its
machine is capped), optionally its objective coefficient (Phase 2 only), then
its item-balance coefficients: `-qty` for inputs, then `qty · prod_mult` for
outputs — the output assignment *overwrites* the input one when the same item
appears in both bags of one recipe. -/
def populateRows (rs : List Recipe) (lp0 : LP) (withObj : Bool) : LP :=
  rs.foldl
    (fun lp r =>
      let lp1 := match lp.machineMap.lookup r.machine with
        | some i =>
          { lp with rows := updateRow lp.rows i (Var.recipe r.name) r.machine_cost_per_craft }
        | none => lp
      let lp2 := if withObj then
          { lp1 with objCoeffs := setCoeffL lp1.objCoeffs (Var.recipe r.name) r.machine_cost_per_craft }
        else lp1
      let lp3 := r.inBag.foldl
        (fun lp p =>
          match lp.itemMap.lookup p.1 with
          | some i => { lp with rows := updateRow lp.rows i (Var.recipe r.name) (-p.2) }
          | none => lp) lp2
      r.outBag.foldl
        (fun lp p =>
          match lp.itemMap.lookup p.1 with
          | some i => { lp with rows := updateRow lp.rows i (Var.recipe r.name) (p.2 * r.prod_mult) }
          | none => lp) lp3)
    lp0

/-- The Phase-1 LP (lines 136–187): balance rows for every non-target item
(bounds `[0,0]`, changed to `[-cap, 0]` for raw items), then the target row
`Balance(target) - T = 0`, then one capacity row per capped machine, then the
population loop.  The Phase-1 objective is maximize `T`. -/
def buildPhase1 (inp : FactoryInput) : LP :=
  let items := allItemsSansTarget inp
  let rows1 := items.map (fun item =>
    Row.mk ("balance_" ++ item)
      (if decide (item ∈ rawItems inp) then -(lookupQ inp.raw_supply item) else 0)
      0 [])
  let itemMapA := items.enum.map (fun p => (p.2, p.1))
  let targetIdx := rows1.length
  let rowsT := rows1 ++ [Row.mk ("balance_" ++ inp.target_item) 0 0 [(Var.tvar, -1)]]
  let itemMap := itemMapA ++ [(inp.target_item, targetIdx)]
  let machineMap := inp.max_machines.enum.map (fun p => (p.2.1, rowsT.length + p.1))
  let rowsM := rowsT ++ inp.max_machines.map (fun p => Row.mk ("cap_" ++ p.1) 0 p.2 [])
  populateRows (recipesOf inp)
    { rows := rowsM, itemMap := itemMap, machineMap := machineMap, objCoeffs := [] } false

/-- The Phase-2 LP (lines 238–291): balance rows for intermediates `[0,0]`,
raw items `[-cap, 0]`, then the target row pinned to
`[requested_target_rate, requested_target_rate]` — whose map assignment
*replaces* the raw entry when the target is also a raw item, leaving that raw
row in the solver without coefficients — then the machine rows and the
population loop with the minimize-machines objective. -/
def buildPhase2 (inp : FactoryInput) : LP :=
  let inter := intermediateItems inp
  let raws := rawItems inp
  let rowsI := inter.map (fun item => Row.mk ("balance_" ++ item) 0 0 [])
  let mapI := inter.enum.map (fun p => (p.2, p.1))
  let rowsR := raws.map (fun item =>
    Row.mk ("balance_" ++ item) (-(lookupQ inp.raw_supply item)) 0 [])
  let mapR := raws.enum.map (fun p => (p.2, rowsI.length + p.1))
  let targetIdx := rowsI.length + rowsR.length
  let rows2 := rowsI ++ rowsR
    ++ [Row.mk ("balance_" ++ inp.target_item) inp.target_rate inp.target_rate []]
  let itemMap := insertReplace (mapI ++ mapR) inp.target_item targetIdx
  let machineMap := inp.max_machines.enum.map (fun p => (p.2.1, targetIdx + 1 + p.1))
  let rowsM := rows2 ++ inp.max_machines.map (fun p => Row.mk ("cap_" ++ p.1) 0 p.2 [])
  populateRows (recipesOf inp)
    { rows := rowsM, itemMap := itemMap, machineMap := machineMap, objCoeffs := [] } true

/-- `MPSolver::ResultStatus`. -/
inductive LpStatus where
  | OPTIMAL
  | FEASIBLE
  | INFEASIBLE
  | UNBOUNDED
  | ABNORMAL
  | NOT_SOLVED
deriving Repr, DecidableEq

/-- What `solve_factory` reads back from one LP solve: the status, each
variable's `solution_value()`, and each constraint's `dual_value()` and
`activity()` (by row index in creation order). -/
structure LpOracle where
  status : LpStatus
  varValue : Var → ℚ
  rowDual : ℕ → ℚ
  rowActivityVal : ℕ → ℚ

/-- The bottleneck-hint harvest from Phase-1 duals (lines 212–228): machine
rows with dual `> tolerance` yield `"<machine> cap"`, item-balance rows of raw
items with dual `> tolerance` yield `"<item> supply"`; if the set is still
empty, a single fallback hint depending on whether `max_feasible_rate`
exceeds the tolerance.  (`std::set<std::string>` iterates sorted, which
`sortedInsert` reproduces, so the emitted array is sorted.)  This is the
machine half of the harvest (lines 214–218). -/
def machineHintsFold (o1 : LpOracle) (mm : List (String × ℕ)) (acc : List String) :
    List String :=
  mm.foldl
    (fun acc p => if o1.rowDual p.2 > tolerance then sortedInsert (p.1 ++ " cap") acc else acc)
    acc

/-- The raw-item half of the hint harvest (lines 219–223). -/
def supplyHintsFold (inp : FactoryInput) (o1 : LpOracle) (im : List (String × ℕ))
    (acc : List String) : List String :=
  im.foldl
    (fun acc p =>
      if decide (p.1 ∈ rawItems inp) && decide (o1.rowDual p.2 > tolerance) then
        sortedInsert (p.1 ++ " supply") acc
      else acc)
    acc

/-- The hint set before the fallback insertions. -/
def preHints (inp : FactoryInput) (o1 : LpOracle) : List String :=
  supplyHintsFold inp o1 (buildPhase1 inp).itemMap
    (machineHintsFold o1 (buildPhase1 inp).machineMap [])

def phase1Hints (inp : FactoryInput) (o1 : LpOracle) (maxRate : ℚ) : List String :=
  let hints1 := preHints inp o1
  if hints1.isEmpty && decide (maxRate > tolerance) then
    sortedInsert "Target rate conflicts with other constraints" hints1
  else if hints1.isEmpty then
    sortedInsert "Unknown bottleneck, possibly no production path" hints1
  else hints1

/-- `std::map<std::string, double>` assignment `m[k] = v`. -/
def msetQ : List (String × ℚ) → String → ℚ → List (String × ℚ)
  | [], k, v => [(k, v)]
  | (k1, v1) :: t, k, v => if k = k1 then (k1, v) :: t else (k1, v1) :: msetQ t k v

/-- `std::map<std::string, double>` accumulation `m[k] += v`: `operator[]`
value-initializes a missing key to 0 and then adds, so the key is *inserted*
when absent. -/
def maddQ : List (String × ℚ) → String → ℚ → List (String × ℚ)
  | [], k, v => [(k, v)]
  | (k1, v1) :: t, k, v => if k = k1 then (k1, v1 + v) :: t else (k1, v1) :: maddQ t k v

/-- One iteration of the success-output recipe loop for
`per_recipe_crafts_per_min` (lines 324–327): recipes with solution value
`> tolerance` are set to that value. -/
def perRecipeStep (o2 : LpOracle) (m : List (String × ℚ)) (r : Recipe) : List (String × ℚ) :=
  let crafts := o2.varValue (Var.recipe r.name)
  if crafts > tolerance then msetQ m r.name crafts else m

/-- `per_recipe_crafts_per_min` (lines 319–330): every recipe initialized to
0, then the recipe loop. -/
def perRecipeCrafts (inp : FactoryInput) (o2 : LpOracle) : List (String × ℚ) :=
  let init := (recipesOf inp).foldl (fun m r => msetQ m r.name 0) []
  (recipesOf inp).foldl (perRecipeStep o2) init

/-- One iteration of the success-output recipe loop for `per_machine_counts`
(lines 324–329): `per_machine_counts[r.machine] += crafts ·
machine_cost_per_craft` for recipes with crafts `> tolerance` — `operator[]`
inserting the machine key when it is not capped. -/
def perMachineStep (o2 : LpOracle) (m : List (String × ℚ)) (r : Recipe) : List (String × ℚ) :=
  let crafts := o2.varValue (Var.recipe r.name)
  if crafts > tolerance then maddQ m r.machine (crafts * r.machine_cost_per_craft) else m

/-- `per_machine_counts` (lines 315–330): capped machines initialized to 0,
then the recipe loop. -/
def perMachineCounts (inp : FactoryInput) (o2 : LpOracle) : List (String × ℚ) :=
  let init := inp.max_machines.foldl (fun m p => msetQ m p.1 0) []
  (recipesOf inp).foldl (perMachineStep o2) init

/-- One iteration of the raw-consumption loop (lines 332–345): consumption is
minus the Phase-2 activity of the row the item maps to; values `> tolerance`
are emitted as is, otherwise 0 is emitted when the item has a cap entry. -/
def rawStep (inp : FactoryInput) (o2 : LpOracle) (lp : LP) (m : List (String × ℚ))
    (item : String) : List (String × ℚ) :=
  let balance := o2.rowActivityVal ((lp.itemMap.lookup item).getD 0)
  let consumption := -balance
  if consumption > tolerance then msetQ m item consumption
  else if (inp.raw_supply.lookup item).isSome then msetQ m item 0
  else m

/-- `raw_consumption_per_min` (lines 332–345): the raw-consumption loop over
all raw items, against the Phase-2 LP. -/
def rawConsumption (inp : FactoryInput) (o2 : LpOracle) : List (String × ℚ) :=
  (rawItems inp).foldl (rawStep inp o2 (buildPhase2 inp)) []

/-- A string-to-number map as an nlohmann JSON object. -/
def qmapJson (m : List (String × ℚ)) : Json :=
  Json.obj (m.map (fun p => (p.1, Json.num p.2)))

/-- Output when Phase 1 fails to solve (lines 192–201).  The single-string
brace initializer is an nlohmann *array* of one string. -/
def initialFailJson : Json :=
  Json.obj [
    ("status", Json.str "infeasible"),
    ("max_feasible_target_per_min", Json.num 0),
    ("bottleneck_hint", Json.arr [Json.str "Initial solver failure"])]

/-- Output when Phase 2 fails to solve (lines 296–305). -/
def phase2FailJson (maxRate : ℚ) : Json :=
  Json.obj [
    ("status", Json.str "infeasible"),
    ("max_feasible_target_per_min", Json.num maxRate),
    ("bottleneck_hint", Json.arr [Json.str "Phase 2 solver failure"])]

/-- Output of the infeasibility path with bottleneck hints (lines 207–232). -/
def infeasibleJson (inp : FactoryInput) (o1 : LpOracle) (maxRate : ℚ) : Json :=
  Json.obj [
    ("status", Json.str "infeasible"),
    ("max_feasible_target_per_min", Json.num maxRate),
    ("bottleneck_hint", Json.arr ((phase1Hints inp o1 maxRate).map Json.str))]

/-- Output of the success path (lines 307–351). -/
def okJsonF (inp : FactoryInput) (o2 : LpOracle) : Json :=
  Json.obj [
    ("status", Json.str "ok"),
    ("per_recipe_crafts_per_min", qmapJson (perRecipeCrafts inp o2)),
    ("per_machine_counts", qmapJson (perMachineCounts inp o2)),
    ("raw_consumption_per_min", qmapJson (rawConsumption inp o2))]

/-- The whole of `solve_factory` after a successful parse. `o1` and `o2` are
the two LP solves (the built LPs are `buildPhase1 inp` and `buildPhase2 inp`;
the oracles report what the solver returned for them). -/
def solve_factory (inp : FactoryInput) (o1 o2 : LpOracle) : Json :=
  if o1.status ≠ LpStatus.OPTIMAL ∧ o1.status ≠ LpStatus.FEASIBLE then
    initialFailJson
  else
    let maxRate := o1.varValue Var.tvar
    if maxRate < inp.target_rate - tolerance then infeasibleJson inp o1 maxRate
    else if o2.status ≠ LpStatus.OPTIMAL ∧ o2.status ≠ LpStatus.FEASIBLE then
      phase2FailJson maxRate
    else okJsonF inp o2

/-- The `main` of `factory/main.cpp` combined with the stdin read of
`solve_factory` (lines 33–39 and 356–364): a `json::parse_error` is caught,
a diagnostic goes to stderr, `solve_factory` returns plainly, and `main`
finishes with exit status 0 and nothing on stdout. -/
def factoryMain (parsed : Option FactoryInput) (o1 o2 : LpOracle) : Belts.ProgResult :=
  match parsed with
  | none => ⟨none, true, 0⟩
  | some inp => ⟨some (solve_factory inp o1 o2), false, 0⟩

end Factory

namespace Belts

/-- Original edges paired with consecutive arc indices starting at `k`: the
statement-side description of the `arc_index` recording performed by the edge
loop (the first original edge gets the index right after the node-cap arcs). -/
def indexedFrom (k : ℕ) : List BEdge → List (BEdge × ℕ)
  | [] => []
  | e :: t => (e, k) :: indexedFrom (k + 1) t

/-- Statement-side description of the emitted `flows` array: one
`{from, to, flow}` entry, in edge order, for exactly those recorded edges
whose final flow `Flow(arc) + lower_bound` exceeds the tolerance. -/
def flowsSpecIdx (o : MaxFlowOracle) : List (BEdge × ℕ) → List Json
  | [] => []
  | p :: t =>
    (if o.flow p.2 + p.1.lower_bound > tolerance then
      [Json.obj [("from", Json.str p.1.from_), ("to", Json.str p.1.to_),
                 ("flow", Json.num (o.flow p.2 + p.1.lower_bound))]]
    else []) ++ flowsSpecIdx o t

/-- Witness instance: sources `{A: 10}`, sink `C`, edges `A→B [0,10]`,
`B→C [0,10]` (spec seed scenario 4). -/
def wBeltsInp : BeltsInput :=
  ⟨[("A", 10)], "C", [], [⟨"A", "B", 0, 10⟩, ⟨"B", "C", 0, 10⟩]⟩

/-- Witness oracle for `wBeltsInp`: OPTIMAL, max flow 10, flow 10 on every
arc. -/
def wBeltsOracle : MaxFlowOracle := ⟨MFStatus.OPTIMAL, 10, fun _ => 10, []⟩

/-- Pre-check counterexample instance: the single edge `A→B` has
`upper_bound 1 < lower_bound 3 − 1e-9`. -/
def preInp : BeltsInput := ⟨[("A", 5)], "B", [], [⟨"A", "B", 3, 1⟩]⟩

end Belts

namespace Factory

/-- The item-balance formula stated by the spec (§4.1, §8) and by the
repository README §3.1, written from the claim's words rather than from the
code: `Balance(i) = Σ_r x_r · (out_r[i] · prod_mult_r − in_r[i])`, to be
compared with what the code's constraint rows enforce. -/
def specBalance (inp : FactoryInput) (x : String → ℚ) (item : String) : ℚ :=
  (recipesOf inp).foldl
    (fun s r => s + x r.name * (lookupQ r.outBag item * r.prod_mult - lookupQ r.inBag item))
    0

/-- The key list of a string-keyed map. -/
def keysQ (m : List (String × ℚ)) : List String := m.map Prod.fst

/-- Every row of an LP is satisfied by the assignment `x`.  This is the
oracle contract for a returned feasible point. -/
def lpFeasible (lp : LP) (x : Var → ℚ) : Prop := ∀ r ∈ lp.rows, rowOk r x

instance (lp : LP) (x : Var → ℚ) : Decidable (lpFeasible lp x) := by
  unfold lpFeasible; exact List.decidableBAll _ lp.rows

/-- Witness instance, spec seed scenario 1: one recipe `iron_plate`
(`in {ore: 1}`, `out {plate: 1}`, `time_s 3.2`) on `furnace` (1 craft/min,
cap 100), raw cap `ore: 100`, target `plate` at 50/min. -/
def wFacInp : FactoryInput :=
  ⟨[("furnace", 1)], [],
   [("iron_plate", ⟨"furnace", 16 / 5, [("ore", 1)], [("plate", 1)]⟩)],
   [("furnace", 100)], [("ore", 100)], "plate", 50⟩

/-- Phase-1 witness oracle for `wFacInp`: OPTIMAL with `max_T = 100`. -/
def wFacO1 : LpOracle := ⟨LpStatus.OPTIMAL, fun _ => 100, fun _ => 0, fun _ => 0⟩

/-- Phase-2 witness oracle for `wFacInp`: the unique plan `iron_plate = 50`,
with honest row activities (`balance_ore = -50`, `balance_plate = 50`). -/
def wFacO2 : LpOracle :=
  ⟨LpStatus.OPTIMAL,
   fun v => match v with | Var.recipe "iron_plate" => 50 | _ => 0,
   fun _ => 0,
   fun i => if i = 0 then -50 else 50⟩

/-- Infeasibility witness instance, spec seed scenario 2: as `wFacInp` but
raw cap `ore: 10`; the target 50 is unreachable (`max_T = 10`). -/
def c5Inp : FactoryInput :=
  ⟨[("furnace", 1)], [],
   [("iron_plate", ⟨"furnace", 16 / 5, [("ore", 1)], [("plate", 1)]⟩)],
   [("furnace", 100)], [("ore", 10)], "plate", 50⟩

/-- Phase-1 oracle for `c5Inp`: OPTIMAL, `max_T = 10`, dual 1 on the
`balance_ore` row (row index 0) and 0 elsewhere. -/
def c5O1 : LpOracle :=
  ⟨LpStatus.OPTIMAL, fun _ => 10, fun i => if i = 0 then 1 else 0, fun _ => 0⟩

/-- Conservation counterexample instance: recipe `r1` consumes `{A:1, B:1}`
and produces `{B:2}` (the item `B` appears in both bags), recipe `r2`
consumes `{B:2}` and produces the target `{C:1}`; machine `M` (1 craft/min,
uncapped), raw cap `A: 10`, target `C` at 1/min. -/
def c2Inp : FactoryInput :=
  ⟨[("M", 1)], [],
   [("r1", ⟨"M", 60, [("A", 1), ("B", 1)], [("B", 2)]⟩),
    ("r2", ⟨"M", 60, [("B", 2)], [("C", 1)]⟩)],
   [], [("A", 10)], "C", 1⟩

/-- The unique Phase-2 feasible point of `c2Inp`: `x_r1 = x_r2 = 1`. -/
def c2x : Var → ℚ := fun v =>
  match v with
  | Var.recipe "r1" => 1
  | Var.recipe "r2" => 1
  | _ => 0

/-- Phase-1 oracle for `c2Inp`: OPTIMAL with `max_T = 10`. -/
def c2O1 : LpOracle := ⟨LpStatus.OPTIMAL, fun _ => 10, fun _ => 0, fun _ => 0⟩

/-- Phase-2 oracle for `c2Inp`: returns `c2x` with honest activities for the
built rows (`balance_B = 0`, `balance_A = -1`, `balance_C = 1`). -/
def c2O2 : LpOracle :=
  ⟨LpStatus.OPTIMAL, c2x, fun _ => 0,
   fun i => if i = 1 then -1 else if i = 2 then 1 else 0⟩

/-- Uncapped-machine counterexample instance: single recipe `r` on the
uncapped machine `M` turning `ore` into the target `tgt`; `max_machines` is
empty. -/
def c6Inp : FactoryInput :=
  ⟨[("M", 1)], [], [("r", ⟨"M", 60, [("ore", 1)], [("tgt", 1)]⟩)],
   [], [("ore", 100)], "tgt", 60⟩

/-- Phase-1 oracle for `c6Inp`: OPTIMAL with `max_T = 100`. -/
def c6O1 : LpOracle := ⟨LpStatus.OPTIMAL, fun _ => 100, fun _ => 0, fun _ => 0⟩

/-- Phase-2 oracle for `c6Inp`: the unique plan `r = 60`, honest activities
(`balance_ore = -60`, target row `= 60`). -/
def c6O2 : LpOracle :=
  ⟨LpStatus.OPTIMAL,
   fun v => match v with | Var.recipe "r" => 60 | _ => 0,
   fun _ => 0,
   fun i => if i = 0 then -60 else 60⟩

/-- An LP oracle whose status is neither OPTIMAL nor FEASIBLE. -/
def abnO : LpOracle := ⟨LpStatus.ABNORMAL, fun _ => 0, fun _ => 0, fun _ => 0⟩

/-- Raw-target instance: the target `ore` is itself a raw item with cap 50;
recipe `r1` on machine `M` (1 craft/min, capped at 2 machines) consumes
`{ore: 100}` and produces `{ore: 1}` at target rate 1.  The machine cap
bounds Phase 1 (its LP maximizes `T` subject to `x_r1 - T = 0` and
`x_r1 ≤ 2`, so `max_T = 2`), and the unique Phase-2 point `x_r1 = 1` draws
99/min of `ore`, far above its cap of 50. -/
def c10Inp : FactoryInput :=
  ⟨[("M", 1)], [], [("r1", ⟨"M", 60, [("ore", 100)], [("ore", 1)]⟩)],
   [("M", 2)], [("ore", 50)], "ore", 1⟩

/-- The unique Phase-2 feasible point of `c10Inp`: `x_r1 = 1`. -/
def c10x : Var → ℚ := fun v =>
  match v with
  | Var.recipe "r1" => 1
  | _ => 0

/-- Phase-1 oracle for `c10Inp`: OPTIMAL with `max_T = 2` (and `x_r1 = 2`),
the finite optimum enforced by the machine cap. -/
def c10O1 : LpOracle := ⟨LpStatus.OPTIMAL, fun _ => 2, fun _ => 0, fun _ => 0⟩

/-- Phase-2 oracle for `c10Inp`: returns `c10x`; honest activities (the
orphan `balance_ore` raw row at index 0 has no coefficients, activity 0; the
target row at index 1 and the `cap_M` row at index 2 both have activity 1). -/
def c10O2 : LpOracle :=
  ⟨LpStatus.OPTIMAL, c10x, fun _ => 0, fun i => if i = 0 then 0 else 1⟩

end Factory

namespace Factory

/-- The population-invariant skeleton of a row: its name, bounds, and `T`
coefficient (the population loop only sets recipe-variable coefficients). -/
def rowSkel (r : Row) : String × ℚ × ℚ × Option ℚ :=
  (r.name, r.lb, r.ub, r.coeffs.lookup Var.tvar)

/-- The part of an LP untouched by the population loop: row skeletons and the
two lookup maps. -/
def lpSkel (lp : LP) : List (String × ℚ × ℚ × Option ℚ) × List (String × ℕ) × List (String × ℕ) :=
  (lp.rows.map rowSkel, lp.itemMap, lp.machineMap)

end Factory

/-! ## Lemmas -/

theorem mem_sortedInsert (s a : String) (l : List String) :
    s ∈ sortedInsert a l ↔ s = a ∨ s ∈ l := by
  induction l with
  | nil => simp [sortedInsert]
  | cons b t ih =>
    simp only [sortedInsert]
    split_ifs with h1 h2
    · subst h1
      simp only [List.mem_cons]
      tauto
    · simp only [List.mem_cons]
    · simp only [List.mem_cons, ih]
      tauto

theorem mem_sortedDedup (s : String) (l : List String) :
    s ∈ sortedDedup l ↔ s ∈ l := by
  suffices h : ∀ acc : List String,
      s ∈ l.foldl (fun acc t => sortedInsert t acc) acc ↔ s ∈ acc ∨ s ∈ l by
    simpa [sortedDedup] using h []
  induction l with
  | nil => intro acc; simp
  | cons b t ih =>
    intro acc
    simp only [List.foldl_cons, ih, mem_sortedInsert, List.mem_cons]
    tauto

namespace Belts

theorem edgeStep_not_bad (nm : NodeMaps) (st : EdgePassState) (e : BEdge)
    (h : ¬ badEdge e) : edgeStep nm st e = Except.ok (edgeStepPure nm st e) := by
  simp [edgeStep, edgeStepPure, h]

theorem foldlM_edgeStep_ok (nm : NodeMaps) :
    ∀ (l : List BEdge) (st : EdgePassState), (∀ e ∈ l, ¬ badEdge e) →
      List.foldlM (edgeStep nm) st l = Except.ok (l.foldl (edgeStepPure nm) st)
  | [], _, _ => rfl
  | e :: t, st, h => by
      have he : ¬ badEdge e := h e (List.mem_cons_self e t)
      have ht : ∀ e2 ∈ t, ¬ badEdge e2 := fun e2 h2 => h e2 (List.mem_cons_of_mem _ h2)
      calc List.foldlM (edgeStep nm) st (e :: t)
          = edgeStep nm st e >>= fun s2 => List.foldlM (edgeStep nm) s2 t := by
            simp [List.foldlM_cons]
        _ = List.foldlM (edgeStep nm) (edgeStepPure nm st e) t := by
            rw [edgeStep_not_bad nm st e he]; rfl
        _ = Except.ok ((e :: t).foldl (edgeStepPure nm) st) := by
            rw [foldlM_edgeStep_ok nm t (edgeStepPure nm st e) ht, List.foldl_cons]

theorem foldlM_edgeStep_error (nm : NodeMaps) :
    ∀ (l : List BEdge) (st : EdgePassState) (e : BEdge),
      l.find? (fun e2 => decide (badEdge e2)) = some e →
      List.foldlM (edgeStep nm) st l = Except.error e
  | [], _, e, h => by simp [List.find?] at h
  | e1 :: t, st, e, h => by
      by_cases hb : badEdge e1
      · have he : e1 = e := by
          simpa [List.find?_cons, hb] using h
        subst he
        calc List.foldlM (edgeStep nm) st (e1 :: t)
            = edgeStep nm st e1 >>= fun s2 => List.foldlM (edgeStep nm) s2 t := by
              simp [List.foldlM_cons]
          _ = Except.error e1 := by
              simp [edgeStep, hb, Bind.bind, Except.bind]
      · have h2 : t.find? (fun e2 => decide (badEdge e2)) = some e := by
          simpa [List.find?_cons, hb] using h
        calc List.foldlM (edgeStep nm) st (e1 :: t)
            = edgeStep nm st e1 >>= fun s2 => List.foldlM (edgeStep nm) s2 t := by
              simp [List.foldlM_cons]
          _ = List.foldlM (edgeStep nm) (edgeStepPure nm st e1) t := by
              rw [edgeStep_not_bad nm st e1 hb]; rfl
          _ = Except.error e := foldlM_edgeStep_error nm t (edgeStepPure nm st e1) e h2

theorem edgePass_eq_ok (inp : BeltsInput) (h : ∀ e ∈ inp.edges, ¬ badEdge e) :
    edgePass inp = Except.ok (edgePassPure inp) :=
  foldlM_edgeStep_ok (nodeMaps inp) inp.edges _ h

theorem edgePass_eq_error (inp : BeltsInput) (e : BEdge)
    (h : inp.edges.find? (fun e2 => decide (badEdge e2)) = some e) :
    edgePass inp = Except.error e :=
  foldlM_edgeStep_error (nodeMaps inp) inp.edges _ e h

theorem foldl_edgeStepPure_indexed (nm : NodeMaps) :
    ∀ (l : List BEdge) (st : EdgePassState),
      (l.foldl (edgeStepPure nm) st).indexed = st.indexed ++ indexedFrom st.arcs.length l
  | [], st => by simp [indexedFrom]
  | e :: t, st => by
      have harc : (edgeStepPure nm st e).arcs.length = st.arcs.length + 1 := by
        simp [edgeStepPure]
      have hidx : (edgeStepPure nm st e).indexed = st.indexed ++ [(e, st.arcs.length)] := by
        simp [edgeStepPure]
      rw [List.foldl_cons, foldl_edgeStepPure_indexed nm t (edgeStepPure nm st e), harc, hidx,
        indexedFrom, List.append_assoc]
      rfl

theorem edgePassPure_indexed (inp : BeltsInput) :
    (edgePassPure inp).indexed = indexedFrom (nodeMaps inp).arcs.length inp.edges := by
  have h := foldl_edgeStepPure_indexed (nodeMaps inp) inp.edges
    ⟨(nodeMaps inp).arcs, balance0 inp, []⟩
  simpa [edgePassPure] using h

theorem okFlowsAux_eq (o : MaxFlowOracle) :
    ∀ (idx : List (BEdge × ℕ)) (acc : List Json),
      okFlowsAux o idx acc = acc ++ flowsSpecIdx o idx
  | [], acc => by simp [okFlowsAux, flowsSpecIdx]
  | p :: t, acc => by
      simp only [okFlowsAux, List.foldl_cons, flowsSpecIdx]
      by_cases hf : o.flow p.2 + p.1.lower_bound > tolerance
      · rw [if_pos hf, if_pos hf]
        have ih := okFlowsAux_eq o t (acc ++ [Json.obj [("from", Json.str p.1.from_),
          ("to", Json.str p.1.to_), ("flow", Json.num (o.flow p.2 + p.1.lower_bound))]])
        rw [show (okFlowsAux o t) = fun acc2 => okFlowsAux o t acc2 from rfl] at ih
        simpa [okFlowsAux, List.append_assoc] using ih
      · rw [if_neg hf, if_neg hf]
        have ih := okFlowsAux_eq o t acc
        simpa [okFlowsAux] using ih

end Belts

/-- C1: for every belts instance in which no edge triggers the `hi < lo`
pre-check and the max-flow oracle returns OPTIMAL, the program emits status
"ok" if and only if the computed `s*`-to-`t*` max-flow value is at least
`total_demand_from_s_star − ε` (`ε = 1e-9`, and `total_demand_from_s_star`
is the sum of the `> ε` per-node imbalances accumulated by the lower-bound
shift, exactly as the source computes it); otherwise it emits status
"infeasible". -/
theorem c1_feasibility_decision (inp : Belts.BeltsInput) (o : Belts.MaxFlowOracle)
    (hpre : ∀ e ∈ inp.edges, ¬ Belts.badEdge e)
    (hst : o.status = Belts.MFStatus.OPTIMAL) :
    ((Belts.solve_belts inp o).getField "status" = some (Json.str "ok")
      ↔ Belts.totalDemandFromSStar inp - tolerance ≤ o.optimalFlow)
    ∧ ((Belts.solve_belts inp o).getField "status" = some (Json.str "ok")
      ∨ (Belts.solve_belts inp o).getField "status" = some (Json.str "infeasible")) := by
  have hep := Belts.edgePass_eq_ok inp hpre
  unfold Belts.solve_belts
  rw [hep]
  simp only [hst, ne_eq, not_true_eq_false, if_neg, ite_false, if_false]
  by_cases hcmp : o.optimalFlow < Belts.demandSum (Belts.edgePassPure inp).balance - tolerance
  · rw [if_pos hcmp]
    have hstat : (Belts.certJson inp (Belts.nodeMaps inp) (Belts.edgePassPure inp) o
        (Belts.demandSum (Belts.edgePassPure inp).balance)).getField "status"
        = some (Json.str "infeasible") := by
      simp [Belts.certJson, Json.getField]
    constructor
    · rw [hstat]
      constructor
      · intro h
        simp at h
      · intro h
        exact absurd hcmp (not_lt.mpr (by simpa [Belts.totalDemandFromSStar] using h))
    · right
      exact hstat
  · rw [if_neg hcmp]
    have hstat : (Belts.okJson inp (Belts.edgePassPure inp) o).getField "status"
        = some (Json.str "ok") := by
      simp [Belts.okJson, Json.getField]
    constructor
    · rw [hstat]
      simp only [true_iff]
      have := not_lt.mp hcmp
      simpa [Belts.totalDemandFromSStar] using this
    · left
      exact hstat

/-- C1 witness: the decision evaluated at seed scenario 4 with an OPTIMAL
oracle of value 10. -/
theorem c1_witness :
    ((Belts.solve_belts Belts.wBeltsInp Belts.wBeltsOracle).getField "status"
        = some (Json.str "ok")
      ↔ Belts.totalDemandFromSStar Belts.wBeltsInp - tolerance
        ≤ Belts.wBeltsOracle.optimalFlow)
    ∧ ((Belts.solve_belts Belts.wBeltsInp Belts.wBeltsOracle).getField "status"
        = some (Json.str "ok")
      ∨ (Belts.solve_belts Belts.wBeltsInp Belts.wBeltsOracle).getField "status"
        = some (Json.str "infeasible")) :=
  c1_feasibility_decision Belts.wBeltsInp Belts.wBeltsOracle
    (by intro e he; fin_cases he <;> norm_num [Belts.badEdge, tolerance]) rfl

/-- C4 counterexample: on the pre-check instance `preInp` (single edge `A→B`
with `hi = 1 < lo − ε = 3 − ε`), the emitted `deficit.tight_edges` is a
single JSON *object* `{from, to, flow_needed}` — nlohmann's initializer-list
rule turns the brace list of string-value pairs into an object — and not a
value of the array-of-edge-objects shape that the claim states. -/
theorem c4_counterexample :
    ((Belts.solve_belts Belts.preInp Belts.wBeltsOracle).getField "deficit").bind
        (fun d => d.getField "tight_edges")
      = some (Json.obj [("from", Json.str "A"), ("to", Json.str "B"),
          ("flow_needed", Json.num (-2))])
    ∧ Json.isArr (Json.obj [("from", Json.str "A"), ("to", Json.str "B"),
          ("flow_needed", Json.num (-2))]) = false := by
  constructor
  · simp [Belts.solve_belts, Belts.edgePass, Belts.edgeStep, Belts.preInp,
      Belts.precheckJson, Belts.totalSupply, Json.getField, List.lookup, List.foldlM]
    norm_num [Belts.badEdge, tolerance, Json.getField, List.lookup]
    simp [List.lookup]
  · rfl

/-- C4 (amended): for every belts instance whose edge list contains an edge
with `hi < lo − ε` (the first such edge `e`), the program emits, for *every*
oracle — so without consulting the max-flow oracle — the fixed pre-check
output: status "infeasible", `deficit.demand_balance` equal to the original
demand balance (the total source supply), and `deficit.tight_edges` citing
that edge as a *single edge object* (not an array) with
`flow_needed = hi − lo`, a negative value. -/
theorem c4_amended_precheck (inp : Belts.BeltsInput) (e : Belts.BEdge)
    (h : inp.edges.find? (fun e2 => decide (Belts.badEdge e2)) = some e)
    (o : Belts.MaxFlowOracle) :
    Belts.solve_belts inp o = Belts.precheckJson (Belts.totalSupply inp) e
    ∧ (Belts.solve_belts inp o).getField "status" = some (Json.str "infeasible")
    ∧ ((Belts.solve_belts inp o).getField "deficit").bind
        (fun d => d.getField "demand_balance") = some (Json.num (Belts.totalSupply inp))
    ∧ ((Belts.solve_belts inp o).getField "deficit").bind
        (fun d => d.getField "tight_edges")
      = some (Json.obj [("from", Json.str e.from_), ("to", Json.str e.to_),
          ("flow_needed", Json.num (e.upper_bound - e.lower_bound))])
    ∧ e.upper_bound - e.lower_bound < 0 := by
  have hep := Belts.edgePass_eq_error inp e h
  have hbad : Belts.badEdge e := by
    have := List.find?_some h
    simpa using this
  have hout : Belts.solve_belts inp o = Belts.precheckJson (Belts.totalSupply inp) e := by
    unfold Belts.solve_belts
    rw [hep]
  refine ⟨hout, ?_, ?_, ?_, ?_⟩
  · rw [hout]
    simp [Belts.precheckJson, Json.getField, List.lookup]
  · rw [hout]
    simp [Belts.precheckJson, Json.getField, List.lookup]
  · rw [hout]
    simp [Belts.precheckJson, Json.getField, List.lookup]
  · have htol : -tolerance < 0 := by norm_num [tolerance]
    exact lt_trans hbad htol

/-- C4 witness: the amended pre-check behaviour evaluated on `preInp`. -/
theorem c4_witness :
    Belts.solve_belts Belts.preInp Belts.wBeltsOracle
      = Belts.precheckJson (Belts.totalSupply Belts.preInp) ⟨"A", "B", 3, 1⟩
    ∧ (Belts.solve_belts Belts.preInp Belts.wBeltsOracle).getField "status"
      = some (Json.str "infeasible")
    ∧ ((Belts.solve_belts Belts.preInp Belts.wBeltsOracle).getField "deficit").bind
        (fun d => d.getField "demand_balance")
      = some (Json.num (Belts.totalSupply Belts.preInp))
    ∧ ((Belts.solve_belts Belts.preInp Belts.wBeltsOracle).getField "deficit").bind
        (fun d => d.getField "tight_edges")
      = some (Json.obj [("from", Json.str "A"), ("to", Json.str "B"),
          ("flow_needed", Json.num ((1 : ℚ) - 3))])
    ∧ (1 : ℚ) - 3 < 0 :=
  c4_amended_precheck Belts.preInp ⟨"A", "B", 3, 1⟩
    (by norm_num [Belts.preInp, List.find?, Belts.badEdge, tolerance]) Belts.wBeltsOracle

/-- C7: on every belts success output, `max_flow_per_min` equals the total
source supply, and the flows array has exactly one `{from, to, flow}` entry
for each original edge whose final flow `Flow(arc) + lower_bound` exceeds
`ε`, with that value, edges at flow `≤ ε` being omitted; the arc of the k-th
original edge is the k-th arc added after the node-cap arcs. -/
theorem c7_ok_output (inp : Belts.BeltsInput) (o : Belts.MaxFlowOracle)
    (hpre : ∀ e ∈ inp.edges, ¬ Belts.badEdge e)
    (hst : o.status = Belts.MFStatus.OPTIMAL)
    (hge : Belts.totalDemandFromSStar inp - tolerance ≤ o.optimalFlow) :
    (Belts.solve_belts inp o).getField "max_flow_per_min"
      = some (Json.num (Belts.totalSupply inp))
    ∧ (Belts.solve_belts inp o).getField "flows"
      = some (Json.arr (Belts.flowsSpecIdx o
          (Belts.indexedFrom (Belts.nodeMaps inp).arcs.length inp.edges))) := by
  have hep := Belts.edgePass_eq_ok inp hpre
  have hlt : ¬ o.optimalFlow < Belts.demandSum (Belts.edgePassPure inp).balance - tolerance :=
    not_lt.mpr (by simpa [Belts.totalDemandFromSStar] using hge)
  have hout : Belts.solve_belts inp o = Belts.okJson inp (Belts.edgePassPure inp) o := by
    unfold Belts.solve_belts
    rw [hep]
    simp [hst, hlt]
  constructor
  · rw [hout]
    simp [Belts.okJson, Json.getField, List.lookup]
  · rw [hout]
    simp only [Belts.okJson, Json.getField, List.lookup]
    rw [Belts.okFlowsAux_eq o, Belts.edgePassPure_indexed inp]
    simp

/-- C7 witness: the success output evaluated at seed scenario 4. -/
theorem c7_witness :
    (Belts.solve_belts Belts.wBeltsInp Belts.wBeltsOracle).getField "max_flow_per_min"
      = some (Json.num (Belts.totalSupply Belts.wBeltsInp))
    ∧ (Belts.solve_belts Belts.wBeltsInp Belts.wBeltsOracle).getField "flows"
      = some (Json.arr (Belts.flowsSpecIdx Belts.wBeltsOracle
          (Belts.indexedFrom (Belts.nodeMaps Belts.wBeltsInp).arcs.length
            Belts.wBeltsInp.edges))) :=
  c7_ok_output Belts.wBeltsInp Belts.wBeltsOracle
    (by intro e he; fin_cases he <;> norm_num [Belts.badEdge, tolerance])
    rfl
    (by simp [Belts.totalDemandFromSStar, Belts.edgePassPure, Belts.edgeStepPure,
          Belts.nodeMaps, Belts.allNodeNames, Belts.balance0, Belts.edgeEndpoints,
          sortedDedup, sortedInsert, Belts.lookupD, Belts.lookupQ, Belts.addAt,
          Belts.totalSupply, Belts.demandSum, Belts.wBeltsInp, Belts.wBeltsOracle,
          List.foldl, List.lookup]
        norm_num [tolerance])

/-- C3: on a malformed-JSON input (`parsed = none`, i.e. `std::cin >> input`
threw `json::parse_error`), each tool writes the diagnostic to stderr and
produces nothing on stdout — but the catch block just *returns* from the
solver function, so `main` finishes normally and the process exits with
status 0, not the nonzero status the claim states. -/
theorem c3_parse_error_behaviour :
    Belts.beltsMain none Belts.wBeltsOracle
      = { outJson := none, errDiag := true, exitCode := 0 }
    ∧ Factory.factoryMain none Factory.wFacO1 Factory.wFacO2
      = { outJson := none, errDiag := true, exitCode := 0 } :=
  ⟨rfl, rfl⟩

/-- C9 counterexample: when Phase 1 returns ABNORMAL, the emitted
`bottleneck_hint` is the single string "Initial solver failure", which is not
the string "solver failure" stated by the claim. -/
theorem c9_counterexample :
    (Factory.solve_factory Factory.c6Inp Factory.abnO Factory.c6O2).getField "bottleneck_hint"
      = some (Json.arr [Json.str "Initial solver failure"])
    ∧ Json.arr [Json.str "Initial solver failure"] ≠ Json.arr [Json.str "solver failure"] := by
  constructor
  · simp [Factory.solve_factory, Factory.abnO, Factory.initialFailJson, Json.getField,
      List.lookup]
  · simp

/-- C9 (amended): if the Phase-1 solve returns a status that is neither
OPTIMAL nor FEASIBLE, the factory tool emits status "infeasible" with
`max_feasible_target_per_min = 0` and `bottleneck_hint` equal to the single
hint "Initial solver failure", and the process exits with status 0. -/
theorem c9_amended_initial_solver_failure (inp : Factory.FactoryInput)
    (o1 o2 : Factory.LpOracle)
    (h1 : o1.status ≠ Factory.LpStatus.OPTIMAL)
    (h2 : o1.status ≠ Factory.LpStatus.FEASIBLE) :
    Factory.solve_factory inp o1 o2 = Factory.initialFailJson
    ∧ (Factory.solve_factory inp o1 o2).getField "status" = some (Json.str "infeasible")
    ∧ (Factory.solve_factory inp o1 o2).getField "max_feasible_target_per_min"
      = some (Json.num 0)
    ∧ (Factory.solve_factory inp o1 o2).getField "bottleneck_hint"
      = some (Json.arr [Json.str "Initial solver failure"])
    ∧ Factory.factoryMain (some inp) o1 o2
      = { outJson := some Factory.initialFailJson, errDiag := false, exitCode := 0 } := by
  have hout : Factory.solve_factory inp o1 o2 = Factory.initialFailJson := by
    unfold Factory.solve_factory
    rw [if_pos ⟨h1, h2⟩]
  refine ⟨hout, ?_, ?_, ?_, ?_⟩
  · rw [hout]; simp [Factory.initialFailJson, Json.getField, List.lookup]
  · rw [hout]; simp [Factory.initialFailJson, Json.getField, List.lookup]
  · rw [hout]; simp [Factory.initialFailJson, Json.getField, List.lookup]
  · simp [Factory.factoryMain, hout]

/-- C9 witness: the amended behaviour evaluated at `c6Inp` with an ABNORMAL
Phase-1 oracle. -/
theorem c9_witness :
    Factory.solve_factory Factory.c6Inp Factory.abnO Factory.c6O2 = Factory.initialFailJson
    ∧ (Factory.solve_factory Factory.c6Inp Factory.abnO Factory.c6O2).getField "status"
      = some (Json.str "infeasible")
    ∧ (Factory.solve_factory Factory.c6Inp Factory.abnO Factory.c6O2).getField
        "max_feasible_target_per_min" = some (Json.num 0)
    ∧ (Factory.solve_factory Factory.c6Inp Factory.abnO Factory.c6O2).getField
        "bottleneck_hint" = some (Json.arr [Json.str "Initial solver failure"])
    ∧ Factory.factoryMain (some Factory.c6Inp) Factory.abnO Factory.c6O2
      = { outJson := some Factory.initialFailJson, errDiag := false, exitCode := 0 } :=
  c9_amended_initial_solver_failure Factory.c6Inp Factory.abnO Factory.c6O2
    (by decide) (by decide)

/-- C6 counterexample: `c6Inp` has no machine caps (`limits.max_machines` is
empty), yet its unique plan uses the uncapped machine `M`, and the emitted
`per_machine_counts` contains the key `M` — `std::map::operator[] +=` inserts
keys for uncapped machines used by the plan, contradicting the claim that
only capped machines appear. -/
theorem c6_counterexample :
    (Factory.solve_factory Factory.c6Inp Factory.c6O1 Factory.c6O2).getField "status"
      = some (Json.str "ok")
    ∧ (Factory.solve_factory Factory.c6Inp Factory.c6O1 Factory.c6O2).getField
        "per_machine_counts" = some (Json.obj [("M", Json.num 60)])
    ∧ "M" ∉ Factory.keysQ Factory.c6Inp.max_machines := by
  refine ⟨?_, ?_, ?_⟩
  · simp [Factory.solve_factory, Factory.c6Inp, Factory.c6O1, Factory.c6O2,
      Factory.okJsonF, Json.getField, List.lookup]
    norm_num [tolerance]
  · simp [Factory.solve_factory, Factory.c6Inp, Factory.c6O1, Factory.c6O2,
      Factory.okJsonF, Json.getField, List.lookup, Factory.qmapJson,
      Factory.perMachineCounts, Factory.perMachineStep, Factory.recipesOf, Factory.mkRecipe,
      Factory.lookupQ, Factory.msetQ, Factory.maddQ]
    norm_num [tolerance, Factory.perMachineStep, Factory.maddQ]
    simp [List.lookup]
  · simp [Factory.keysQ, Factory.c6Inp]

namespace Factory

theorem mem_keys_msetQ (m : List (String × ℚ)) (k : String) (v : ℚ) (s : String) :
    s ∈ keysQ (msetQ m k v) ↔ s = k ∨ s ∈ keysQ m := by
  induction m with
  | nil => simp [msetQ, keysQ]
  | cons p t ih =>
    obtain ⟨k1, v1⟩ := p
    simp only [msetQ]
    split_ifs with h
    · subst h
      simp only [keysQ, List.map_cons, List.mem_cons]
      tauto
    · simp only [keysQ, List.map_cons, List.mem_cons] at *
      rw [ih]
      tauto

theorem mem_keys_maddQ (m : List (String × ℚ)) (k : String) (v : ℚ) (s : String) :
    s ∈ keysQ (maddQ m k v) ↔ s = k ∨ s ∈ keysQ m := by
  induction m with
  | nil => simp [maddQ, keysQ]
  | cons p t ih =>
    obtain ⟨k1, v1⟩ := p
    simp only [maddQ]
    split_ifs with h
    · subst h
      simp only [keysQ, List.map_cons, List.mem_cons]
      tauto
    · simp only [keysQ, List.map_cons, List.mem_cons] at *
      rw [ih]
      tauto

theorem lookup_msetQ (m : List (String × ℚ)) (k k' : String) (v : ℚ) :
    (msetQ m k v).lookup k' = if k' = k then some v else m.lookup k' := by
  induction m with
  | nil =>
    by_cases h : k' = k
    · have hb : (k' == k) = true := by simpa using h
      simp [msetQ, List.lookup, hb, h]
    · have hb : (k' == k) = false := by simpa using h
      simp [msetQ, List.lookup, hb, h]
  | cons p t ih =>
    obtain ⟨k1, v1⟩ := p
    simp only [msetQ]
    by_cases h : k = k1
    · subst h
      by_cases h2 : k' = k
      · have hb : (k' == k) = true := by simpa using h2
        simp [List.lookup, hb, h2]
      · have hb : (k' == k) = false := by simpa using h2
        simp [List.lookup, hb, h2]
    · rw [if_neg h]
      by_cases h2 : k' = k1
      · subst h2
        have hne : ¬ k' = k := fun hh => h hh.symm
        have hb : (k' == k') = true := by simp
        simp [List.lookup, hb, hne]
      · have hb : (k' == k1) = false := by simpa using h2
        simp [List.lookup, hb, ih]

theorem lookup_maddQ_ne (m : List (String × ℚ)) (k k' : String) (v : ℚ) (h : k' ≠ k) :
    (maddQ m k v).lookup k' = m.lookup k' := by
  induction m with
  | nil =>
    have hb : (k' == k) = false := by simpa using h
    simp [maddQ, List.lookup, hb]
  | cons p t ih =>
    obtain ⟨k1, v1⟩ := p
    simp only [maddQ]
    by_cases h1 : k = k1
    · subst h1
      have hb : (k' == k) = false := by simpa using h
      simp [List.lookup, hb]
    · rw [if_neg h1]
      by_cases h2 : k' = k1
      · subst h2
        simp [List.lookup]
      · have hb : (k' == k1) = false := by simpa using h2
        simp [List.lookup, hb, ih]

/-- Keys after a `m[f a] = 0` initialization fold: the initial keys plus the
image of `f`. -/
theorem mem_keys_foldl_mset0 {α : Type} (f : α → String) :
    ∀ (l : List α) (init : List (String × ℚ)) (s : String),
      s ∈ keysQ (l.foldl (fun m a => msetQ m (f a) 0) init)
        ↔ s ∈ keysQ init ∨ s ∈ l.map f
  | [], init, s => by simp
  | a :: t, init, s => by
    rw [List.foldl_cons, mem_keys_foldl_mset0 f t (msetQ init (f a) 0) s,
      mem_keys_msetQ]
    simp only [List.map_cons, List.mem_cons]
    tauto

/-- Values after a `m[f a] = 0` initialization fold: every key of the image
of `f`, and every initial key bound to 0, looks up to 0. -/
theorem lookup_foldl_mset0 {α : Type} (f : α → String) :
    ∀ (l : List α) (init : List (String × ℚ)) (s : String),
      (s ∈ l.map f ∨ init.lookup s = some 0) →
      (l.foldl (fun m a => msetQ m (f a) 0) init).lookup s = some 0
  | [], init, s, h => by simpa using h
  | a :: t, init, s, h => by
    rw [List.foldl_cons]
    apply lookup_foldl_mset0 f t
    by_cases he : s = f a
    · right
      rw [lookup_msetQ, if_pos he]
    · rcases h with h | h
      · simp only [List.map_cons, List.mem_cons] at h
        rcases h with h | h
        · exact absurd h he
        · left; exact h
      · right
        rw [lookup_msetQ, if_neg he]
        exact h

/-- Key membership through the `per_machine_counts` accumulation fold. -/
theorem mem_keys_machineFold (o2 : LpOracle) :
    ∀ (rs : List Recipe) (init : List (String × ℚ)) (s : String),
      s ∈ keysQ (rs.foldl (perMachineStep o2) init)
        ↔ s ∈ keysQ init
          ∨ ∃ r ∈ rs, tolerance < o2.varValue (Var.recipe r.name) ∧ r.machine = s
  | [], init, s => by simp
  | r :: t, init, s => by
    rw [List.foldl_cons, mem_keys_machineFold o2 t _ s]
    simp only [List.mem_cons, perMachineStep]
    by_cases hc : o2.varValue (Var.recipe r.name) > tolerance
    · rw [if_pos hc, mem_keys_maddQ]
      constructor
      · rintro (⟨h | h⟩ | ⟨r2, hr2, hc2, hm2⟩)
        · exact Or.inr ⟨r, Or.inl rfl, hc, h.symm⟩
        · exact Or.inl h
        · exact Or.inr ⟨r2, Or.inr hr2, hc2, hm2⟩
      · rintro (h | ⟨r2, hr2 | hr2, hc2, hm2⟩)
        · exact Or.inl (Or.inr h)
        · subst hr2; exact Or.inl (Or.inl hm2.symm)
        · exact Or.inr ⟨r2, hr2, hc2, hm2⟩
    · rw [if_neg hc]
      constructor
      · rintro (h | ⟨r2, hr2, hc2, hm2⟩)
        · exact Or.inl h
        · exact Or.inr ⟨r2, Or.inr hr2, hc2, hm2⟩
      · rintro (h | ⟨r2, hr2 | hr2, hc2, hm2⟩)
        · exact Or.inl h
        · subst hr2; exact absurd hc2 hc
        · exact Or.inr ⟨r2, hr2, hc2, hm2⟩

/-- A machine not touched by any used recipe keeps its initial value through
the `per_machine_counts` accumulation fold. -/
theorem lookup_machineFold_untouched (o2 : LpOracle) :
    ∀ (rs : List Recipe) (init : List (String × ℚ)) (s : String),
      (∀ r ∈ rs, tolerance < o2.varValue (Var.recipe r.name) → r.machine ≠ s) →
      (rs.foldl (perMachineStep o2) init).lookup s = init.lookup s
  | [], init, s, _ => rfl
  | r :: t, init, s, h => by
    rw [List.foldl_cons]
    rw [lookup_machineFold_untouched o2 t _ s
      (fun r2 hr2 => h r2 (List.mem_cons_of_mem _ hr2))]
    by_cases hc : o2.varValue (Var.recipe r.name) > tolerance
    · simp only [perMachineStep, if_pos hc]
      exact lookup_maddQ_ne init r.machine s _
        (fun he => h r (List.mem_cons_self r t) hc he.symm)
    · simp only [perMachineStep, if_neg hc]

/-- Key membership survives the `per_recipe_crafts_per_min` update fold. -/
theorem mem_keys_recipeFold_mono (o2 : LpOracle) :
    ∀ (rs : List Recipe) (init : List (String × ℚ)) (s : String),
      s ∈ keysQ init →
      s ∈ keysQ (rs.foldl (perRecipeStep o2) init)
  | [], _, _, h => h
  | r :: t, init, s, h => by
    rw [List.foldl_cons]
    apply mem_keys_recipeFold_mono o2 t
    by_cases hc : o2.varValue (Var.recipe r.name) > tolerance
    · simp only [perRecipeStep]
      rw [if_pos hc, mem_keys_msetQ]
      exact Or.inr h
    · simp only [perRecipeStep]
      rwa [if_neg hc]

/-- A recipe not set by any step keeps its initial value through the
`per_recipe_crafts_per_min` update fold. -/
theorem lookup_recipeFold_untouched (o2 : LpOracle) :
    ∀ (rs : List Recipe) (init : List (String × ℚ)) (s : String),
      (∀ r ∈ rs, tolerance < o2.varValue (Var.recipe r.name) → r.name ≠ s) →
      (rs.foldl (perRecipeStep o2) init).lookup s = init.lookup s
  | [], init, s, _ => rfl
  | r :: t, init, s, h => by
    rw [List.foldl_cons]
    rw [lookup_recipeFold_untouched o2 t _ s
      (fun r2 hr2 => h r2 (List.mem_cons_of_mem _ hr2))]
    by_cases hc : o2.varValue (Var.recipe r.name) > tolerance
    · simp only [perRecipeStep]
      rw [if_pos hc, lookup_msetQ,
        if_neg (fun he => h r (List.mem_cons_self r t) hc he.symm)]
    · simp only [perRecipeStep]
      rw [if_neg hc]

end Factory

namespace Factory

theorem lookup_isSome_of_mem_keys (m : List (String × ℚ)) (k : String)
    (h : k ∈ m.map Prod.fst) : (m.lookup k).isSome = true := by
  induction m with
  | nil => simp at h
  | cons p t ih =>
    obtain ⟨k1, v1⟩ := p
    by_cases he : k = k1
    · subst he
      simp [List.lookup]
    · have hb : (k == k1) = false := by simpa using he
      simp only [List.map_cons, List.mem_cons] at h
      rcases h with h | h
      · exact absurd h he
      · simp [List.lookup, hb, ih h]

theorem mem_keys_rawFold (inp : FactoryInput) (o2 : LpOracle) (lp : LP) :
    ∀ (items : List String) (init : List (String × ℚ)) (i : String),
      (i ∈ keysQ init ∨ (i ∈ items ∧ (inp.raw_supply.lookup i).isSome = true)) →
      i ∈ keysQ (items.foldl (rawStep inp o2 lp) init)
  | [], init, i, h => by
    rcases h with h | ⟨h, _⟩
    · exact h
    · simp at h
  | item :: t, init, i, h => by
    rw [List.foldl_cons]
    apply mem_keys_rawFold inp o2 lp t
    have hmono : i ∈ keysQ init → i ∈ keysQ (rawStep inp o2 lp init item) := by
      intro hi
      simp only [rawStep]
      split_ifs <;> first
        | exact hi
        | exact (mem_keys_msetQ _ _ _ _).mpr (Or.inr hi)
    rcases h with h | ⟨hmem, hcap⟩
    · exact Or.inl (hmono h)
    · rcases List.mem_cons.mp hmem with he | ht
      · subst he
        left
        simp only [rawStep]
        split_ifs
        · exact (mem_keys_msetQ _ _ _ _).mpr (Or.inl rfl)
        · exact (mem_keys_msetQ _ _ _ _).mpr (Or.inl rfl)
      · exact Or.inr ⟨ht, hcap⟩

theorem lookup_rawFold_zero (inp : FactoryInput) (o2 : LpOracle) (lp : LP) :
    ∀ (items : List String) (init : List (String × ℚ)) (i : String),
      ¬ (-(o2.rowActivityVal ((lp.itemMap.lookup i).getD 0)) > tolerance) →
      (inp.raw_supply.lookup i).isSome = true →
      ((i ∈ items) ∨ init.lookup i = some 0) →
      (items.foldl (rawStep inp o2 lp) init).lookup i = some 0
  | [], init, i, _, _, h => by
    rcases h with h | h
    · simp at h
    · simpa using h
  | item :: t, init, i, hcond, hcap, h => by
    rw [List.foldl_cons]
    apply lookup_rawFold_zero inp o2 lp t _ i hcond hcap
    by_cases he : i = item
    · subst he
      right
      simp only [rawStep]
      rw [if_neg hcond, if_pos hcap, lookup_msetQ, if_pos rfl]
    · rcases h with hm | hz
      · rcases List.mem_cons.mp hm with h1 | h1
        · exact absurd h1 he
        · left; exact h1
      · right
        simp only [rawStep]
        split_ifs <;> simp [lookup_msetQ, he, hz]

/-- The recipe names of `recipesOf` are the recipe-map keys. -/
theorem recipesOf_names (inp : FactoryInput) :
    (recipesOf inp).map Recipe.name = inp.recipes.map Prod.fst := by
  simp [recipesOf, mkRecipe]

/-- Under a good Phase-1 status, a reachable target, and a good Phase-2
status, `solve_factory` takes the success path. -/
theorem solve_factory_ok (inp : FactoryInput) (o1 o2 : LpOracle)
    (h1 : o1.status = LpStatus.OPTIMAL ∨ o1.status = LpStatus.FEASIBLE)
    (h2 : ¬ o1.varValue Var.tvar < inp.target_rate - tolerance)
    (h3 : o2.status = LpStatus.OPTIMAL ∨ o2.status = LpStatus.FEASIBLE) :
    solve_factory inp o1 o2 = okJsonF inp o2 := by
  have hn1 : ¬ (o1.status ≠ LpStatus.OPTIMAL ∧ o1.status ≠ LpStatus.FEASIBLE) := by
    rcases h1 with h | h <;> simp [h]
  have hn3 : ¬ (o2.status ≠ LpStatus.OPTIMAL ∧ o2.status ≠ LpStatus.FEASIBLE) := by
    rcases h3 with h | h <;> simp [h]
  unfold solve_factory
  rw [if_neg hn1]
  simp only []
  rw [if_neg h2, if_neg hn3]

end Factory

/-- C6 (amended): in every factory "ok" output the emitted
`per_machine_counts` is the map built by lines 315–330, and its keys are
exactly the machines listed under `limits.max_machines` *plus* every machine
of a recipe whose emitted crafts exceed the tolerance: an uncapped machine
used by the plan does appear, inserted by `std::map::operator[] +=`. -/
theorem c6_amended_machine_keys (inp : Factory.FactoryInput)
    (o1 o2 : Factory.LpOracle) (m : String)
    (h1 : o1.status = Factory.LpStatus.OPTIMAL ∨ o1.status = Factory.LpStatus.FEASIBLE)
    (h2 : ¬ o1.varValue Factory.Var.tvar < inp.target_rate - tolerance)
    (h3 : o2.status = Factory.LpStatus.OPTIMAL ∨ o2.status = Factory.LpStatus.FEASIBLE) :
    (Factory.solve_factory inp o1 o2).getField "per_machine_counts"
      = some (Factory.qmapJson (Factory.perMachineCounts inp o2))
    ∧ (m ∈ Factory.keysQ (Factory.perMachineCounts inp o2)
        ↔ m ∈ Factory.keysQ inp.max_machines
          ∨ ∃ r ∈ Factory.recipesOf inp,
              tolerance < o2.varValue (Factory.Var.recipe r.name) ∧ r.machine = m) := by
  constructor
  · rw [Factory.solve_factory_ok inp o1 o2 h1 h2 h3]
    simp [Factory.okJsonF, Json.getField, List.lookup]
  · unfold Factory.perMachineCounts
    rw [Factory.mem_keys_machineFold, Factory.mem_keys_foldl_mset0 Prod.fst]
    simp [Factory.keysQ]

/-- C6 witness: the amended key characterization evaluated at `c6Inp`. -/
theorem c6_witness :
    (Factory.solve_factory Factory.c6Inp Factory.c6O1 Factory.c6O2).getField
        "per_machine_counts"
      = some (Factory.qmapJson (Factory.perMachineCounts Factory.c6Inp Factory.c6O2))
    ∧ ("M" ∈ Factory.keysQ (Factory.perMachineCounts Factory.c6Inp Factory.c6O2)
        ↔ "M" ∈ Factory.keysQ Factory.c6Inp.max_machines
          ∨ ∃ r ∈ Factory.recipesOf Factory.c6Inp,
              tolerance < Factory.c6O2.varValue (Factory.Var.recipe r.name)
              ∧ r.machine = "M") :=
  c6_amended_machine_keys Factory.c6Inp Factory.c6O1 Factory.c6O2 "M" (Or.inl rfl)
    (by norm_num [Factory.c6O1, Factory.c6Inp, tolerance]) (Or.inl rfl)

/-- C8: in every factory "ok" output, `per_machine_counts` has a key for
every machine listed under `limits.max_machines`, `per_recipe_crafts_per_min`
a key for every recipe, and `raw_consumption_per_min` a key for every raw
item (every key of `limits.raw_supply_per_min`); entries unused by the plan
(crafts at most `ε`, no used recipe on the machine, consumption at most `ε`)
are emitted with value 0. -/
theorem c8_output_key_completeness (inp : Factory.FactoryInput)
    (o1 o2 : Factory.LpOracle)
    (h1 : o1.status = Factory.LpStatus.OPTIMAL ∨ o1.status = Factory.LpStatus.FEASIBLE)
    (h2 : ¬ o1.varValue Factory.Var.tvar < inp.target_rate - tolerance)
    (h3 : o2.status = Factory.LpStatus.OPTIMAL ∨ o2.status = Factory.LpStatus.FEASIBLE) :
    ((Factory.solve_factory inp o1 o2).getField "per_recipe_crafts_per_min"
        = some (Factory.qmapJson (Factory.perRecipeCrafts inp o2))
      ∧ (Factory.solve_factory inp o1 o2).getField "per_machine_counts"
        = some (Factory.qmapJson (Factory.perMachineCounts inp o2))
      ∧ (Factory.solve_factory inp o1 o2).getField "raw_consumption_per_min"
        = some (Factory.qmapJson (Factory.rawConsumption inp o2)))
    ∧ (∀ m ∈ Factory.keysQ inp.max_machines,
        m ∈ Factory.keysQ (Factory.perMachineCounts inp o2))
    ∧ (∀ p ∈ inp.recipes, p.1 ∈ Factory.keysQ (Factory.perRecipeCrafts inp o2))
    ∧ (∀ i ∈ Factory.rawItems inp, i ∈ Factory.keysQ (Factory.rawConsumption inp o2))
    ∧ (∀ p ∈ inp.recipes, o2.varValue (Factory.Var.recipe p.1) ≤ tolerance →
        (Factory.perRecipeCrafts inp o2).lookup p.1 = some 0)
    ∧ (∀ m ∈ Factory.keysQ inp.max_machines,
        (∀ r ∈ Factory.recipesOf inp, r.machine = m →
          o2.varValue (Factory.Var.recipe r.name) ≤ tolerance) →
        (Factory.perMachineCounts inp o2).lookup m = some 0)
    ∧ (∀ i ∈ Factory.rawItems inp,
        -(o2.rowActivityVal (((Factory.buildPhase2 inp).itemMap.lookup i).getD 0))
            ≤ tolerance →
        (Factory.rawConsumption inp o2).lookup i = some 0) := by
  have hok := Factory.solve_factory_ok inp o1 o2 h1 h2 h3
  refine ⟨⟨?_, ?_, ?_⟩, ?_, ?_, ?_, ?_, ?_, ?_⟩
  · rw [hok]; simp [Factory.okJsonF, Json.getField, List.lookup]
  · rw [hok]; simp [Factory.okJsonF, Json.getField, List.lookup]
  · rw [hok]; simp [Factory.okJsonF, Json.getField, List.lookup]
  · intro m hm
    unfold Factory.perMachineCounts
    rw [Factory.mem_keys_machineFold]
    left
    rw [Factory.mem_keys_foldl_mset0 Prod.fst]
    right
    exact hm
  · intro p hp
    unfold Factory.perRecipeCrafts
    apply Factory.mem_keys_recipeFold_mono
    rw [Factory.mem_keys_foldl_mset0 Factory.Recipe.name]
    right
    rw [Factory.recipesOf_names]
    exact List.mem_map_of_mem Prod.fst hp
  · intro i hi
    unfold Factory.rawConsumption
    apply Factory.mem_keys_rawFold
    right
    refine ⟨hi, ?_⟩
    apply Factory.lookup_isSome_of_mem_keys
    exact (mem_sortedDedup i _).mp hi
  · intro p hp hle
    unfold Factory.perRecipeCrafts
    rw [Factory.lookup_recipeFold_untouched]
    · apply Factory.lookup_foldl_mset0
      left
      rw [Factory.recipesOf_names]
      exact List.mem_map_of_mem Prod.fst hp
    · intro r hr hgt he
      rw [he] at hgt
      exact absurd hle (not_le.mpr hgt)
  · intro m hm hall
    unfold Factory.perMachineCounts
    rw [Factory.lookup_machineFold_untouched]
    · apply Factory.lookup_foldl_mset0
      left
      simpa [Factory.keysQ] using hm
    · intro r hr hgt
      exact fun he => absurd hgt (not_lt.mpr (hall r hr he))
  · intro i hi hle
    unfold Factory.rawConsumption
    apply Factory.lookup_rawFold_zero
    · exact not_lt.mpr hle
    · apply Factory.lookup_isSome_of_mem_keys
      exact (mem_sortedDedup i _).mp hi
    · left; exact hi

/-- C8 witness: key completeness evaluated at seed scenario 1. -/
theorem c8_witness :
    ((Factory.solve_factory Factory.wFacInp Factory.wFacO1 Factory.wFacO2).getField
          "per_recipe_crafts_per_min"
        = some (Factory.qmapJson (Factory.perRecipeCrafts Factory.wFacInp Factory.wFacO2))
      ∧ (Factory.solve_factory Factory.wFacInp Factory.wFacO1 Factory.wFacO2).getField
          "per_machine_counts"
        = some (Factory.qmapJson (Factory.perMachineCounts Factory.wFacInp Factory.wFacO2))
      ∧ (Factory.solve_factory Factory.wFacInp Factory.wFacO1 Factory.wFacO2).getField
          "raw_consumption_per_min"
        = some (Factory.qmapJson (Factory.rawConsumption Factory.wFacInp Factory.wFacO2)))
    ∧ (∀ m ∈ Factory.keysQ Factory.wFacInp.max_machines,
        m ∈ Factory.keysQ (Factory.perMachineCounts Factory.wFacInp Factory.wFacO2))
    ∧ (∀ p ∈ Factory.wFacInp.recipes,
        p.1 ∈ Factory.keysQ (Factory.perRecipeCrafts Factory.wFacInp Factory.wFacO2))
    ∧ (∀ i ∈ Factory.rawItems Factory.wFacInp,
        i ∈ Factory.keysQ (Factory.rawConsumption Factory.wFacInp Factory.wFacO2))
    ∧ (∀ p ∈ Factory.wFacInp.recipes,
        Factory.wFacO2.varValue (Factory.Var.recipe p.1) ≤ tolerance →
        (Factory.perRecipeCrafts Factory.wFacInp Factory.wFacO2).lookup p.1 = some 0)
    ∧ (∀ m ∈ Factory.keysQ Factory.wFacInp.max_machines,
        (∀ r ∈ Factory.recipesOf Factory.wFacInp, r.machine = m →
          Factory.wFacO2.varValue (Factory.Var.recipe r.name) ≤ tolerance) →
        (Factory.perMachineCounts Factory.wFacInp Factory.wFacO2).lookup m = some 0)
    ∧ (∀ i ∈ Factory.rawItems Factory.wFacInp,
        -(Factory.wFacO2.rowActivityVal
            (((Factory.buildPhase2 Factory.wFacInp).itemMap.lookup i).getD 0))
          ≤ tolerance →
        (Factory.rawConsumption Factory.wFacInp Factory.wFacO2).lookup i = some 0) :=
  c8_output_key_completeness Factory.wFacInp Factory.wFacO1 Factory.wFacO2 (Or.inl rfl)
    (by norm_num [Factory.wFacO1, Factory.wFacInp, tolerance]) (Or.inl rfl)

/-- C2, code bug: `SetCoefficient` replaces a coefficient, so for recipe `r1`
of `c2Inp` — whose item `B` appears in both `in` (qty 1) and `out` (qty 2) —
the populated Phase-2 balance row of `B` carries coefficient `2` for `x_r1`
instead of `2·prod − 1 = 1`.  The unique Phase-2 feasible point of the LP the
code actually built is `x_r1 = x_r2 = 1`; the program emits it with status
"ok", yet the spec's conservation sum
`Σ_r x_r · (out_r[B] · prod_mult_r − in_r[B])` evaluates to `−1`, violating
the claimed `= 0` within `ε` for the intermediate item `B`. -/
theorem c2_conservation_code_bug :
    (Factory.solve_factory Factory.c2Inp Factory.c2O1 Factory.c2O2).getField "status"
      = some (Json.str "ok")
    ∧ (Factory.solve_factory Factory.c2Inp Factory.c2O1 Factory.c2O2).getField
        "per_recipe_crafts_per_min"
      = some (Json.obj [("r1", Json.num 1), ("r2", Json.num 1)])
    ∧ (Factory.buildPhase2 Factory.c2Inp).rows
      = [⟨"balance_B", 0, 0, [(Factory.Var.recipe "r1", 2), (Factory.Var.recipe "r2", -2)]⟩,
         ⟨"balance_A", -10, 0, [(Factory.Var.recipe "r1", -1)]⟩,
         ⟨"balance_C", 1, 1, [(Factory.Var.recipe "r2", 1)]⟩]
    ∧ Factory.lpFeasible (Factory.buildPhase2 Factory.c2Inp) Factory.c2x
    ∧ "B" ∈ Factory.intermediateItems Factory.c2Inp
    ∧ Factory.specBalance Factory.c2Inp (fun n => Factory.c2x (Factory.Var.recipe n)) "B" = -1
    ∧ tolerance
      < |Factory.specBalance Factory.c2Inp (fun n => Factory.c2x (Factory.Var.recipe n)) "B"| := by
  have hrows : (Factory.buildPhase2 Factory.c2Inp).rows
      = [⟨"balance_B", 0, 0, [(Factory.Var.recipe "r1", 2), (Factory.Var.recipe "r2", -2)]⟩,
         ⟨"balance_A", -10, 0, [(Factory.Var.recipe "r1", -1)]⟩,
         ⟨"balance_C", 1, 1, [(Factory.Var.recipe "r2", 1)]⟩] := by
    simp [Factory.buildPhase2, Factory.intermediateItems, Factory.allItemsSansTarget,
      Factory.allItems, Factory.rawItems, sortedDedup, sortedInsert, Factory.c2Inp,
      Factory.insertReplace, Factory.recipesOf, Factory.mkRecipe, Factory.lookupQ,
      Factory.populateRows, Factory.updateRow, Factory.setCoeffL, Factory.Row.setCoeff,
      List.lookup, List.enum, List.enumFrom]
  have hspec : Factory.specBalance Factory.c2Inp
      (fun n => Factory.c2x (Factory.Var.recipe n)) "B" = -1 := by
    simp [Factory.specBalance, Factory.recipesOf, Factory.mkRecipe, Factory.c2Inp,
      Factory.c2x, Factory.lookupQ, List.lookup]
    norm_num
  refine ⟨?_, ?_, hrows, ?_, ?_, hspec, ?_⟩
  · simp [Factory.solve_factory, Factory.c2Inp, Factory.c2O1, Factory.c2O2,
      Factory.okJsonF, Json.getField, List.lookup]
    norm_num [tolerance]
  · simp [Factory.solve_factory, Factory.c2Inp, Factory.c2O1, Factory.c2O2,
      Factory.okJsonF, Json.getField, List.lookup, Factory.qmapJson,
      Factory.perRecipeCrafts, Factory.perRecipeStep, Factory.recipesOf, Factory.mkRecipe,
      Factory.lookupQ, Factory.msetQ, Factory.c2x]
    norm_num [tolerance, Factory.perRecipeStep, Factory.msetQ, Factory.c2x]
    simp [List.lookup]
  · unfold Factory.lpFeasible
    rw [hrows]
    intro r hr
    fin_cases hr <;>
      norm_num [Factory.rowOk, Factory.rowActivity, Factory.c2x]
  · simp [Factory.intermediateItems, Factory.allItemsSansTarget, Factory.allItems,
      Factory.rawItems, sortedDedup, sortedInsert, Factory.c2Inp]
    decide
  · rw [hspec]
    norm_num [tolerance]

namespace Factory

theorem mem_machineHintsFold (o1 : LpOracle) :
    ∀ (mm : List (String × ℕ)) (acc : List String) (s : String),
      s ∈ machineHintsFold o1 mm acc
        ↔ s ∈ acc ∨ ∃ p ∈ mm, tolerance < o1.rowDual p.2 ∧ s = p.1 ++ " cap"
  | [], acc, s => by simp [machineHintsFold]
  | p :: t, acc, s => by
    have hstep : machineHintsFold o1 (p :: t) acc = machineHintsFold o1 t
        (if o1.rowDual p.2 > tolerance then sortedInsert (p.1 ++ " cap") acc else acc) := rfl
    rw [hstep, mem_machineHintsFold o1 t _ s]
    by_cases hd : o1.rowDual p.2 > tolerance
    · rw [if_pos hd, mem_sortedInsert]
      simp only [List.mem_cons]
      constructor
      · rintro ((h | h) | ⟨q, hq, hdq, hsq⟩)
        · exact Or.inr ⟨p, Or.inl rfl, hd, h⟩
        · exact Or.inl h
        · exact Or.inr ⟨q, Or.inr hq, hdq, hsq⟩
      · rintro (h | ⟨q, hq | hq, hdq, hsq⟩)
        · exact Or.inl (Or.inr h)
        · subst hq; exact Or.inl (Or.inl hsq)
        · exact Or.inr ⟨q, hq, hdq, hsq⟩
    · rw [if_neg hd]
      simp only [List.mem_cons]
      constructor
      · rintro (h | ⟨q, hq, hdq, hsq⟩)
        · exact Or.inl h
        · exact Or.inr ⟨q, Or.inr hq, hdq, hsq⟩
      · rintro (h | ⟨q, hq | hq, hdq, hsq⟩)
        · exact Or.inl h
        · subst hq; exact absurd hdq hd
        · exact Or.inr ⟨q, hq, hdq, hsq⟩

theorem mem_supplyHintsFold (inp : FactoryInput) (o1 : LpOracle) :
    ∀ (im : List (String × ℕ)) (acc : List String) (s : String),
      s ∈ supplyHintsFold inp o1 im acc
        ↔ s ∈ acc
          ∨ ∃ p ∈ im, p.1 ∈ rawItems inp ∧ tolerance < o1.rowDual p.2
              ∧ s = p.1 ++ " supply"
  | [], acc, s => by simp [supplyHintsFold]
  | p :: t, acc, s => by
    have hstep : supplyHintsFold inp o1 (p :: t) acc = supplyHintsFold inp o1 t
        (if decide (p.1 ∈ rawItems inp) && decide (o1.rowDual p.2 > tolerance) then
          sortedInsert (p.1 ++ " supply") acc
        else acc) := rfl
    rw [hstep, mem_supplyHintsFold inp o1 t _ s]
    by_cases hd : p.1 ∈ rawItems inp ∧ tolerance < o1.rowDual p.2
    · have hb : (decide (p.1 ∈ rawItems inp) && decide (o1.rowDual p.2 > tolerance)) = true := by
        simp [hd.1, hd.2]
      rw [hb, if_pos rfl, mem_sortedInsert]
      simp only [List.mem_cons]
      constructor
      · rintro ((h | h) | ⟨q, hq, hrq, hdq, hsq⟩)
        · exact Or.inr ⟨p, Or.inl rfl, hd.1, hd.2, h⟩
        · exact Or.inl h
        · exact Or.inr ⟨q, Or.inr hq, hrq, hdq, hsq⟩
      · rintro (h | ⟨q, hq | hq, hrq, hdq, hsq⟩)
        · exact Or.inl (Or.inr h)
        · subst hq; exact Or.inl (Or.inl hsq)
        · exact Or.inr ⟨q, hq, hrq, hdq, hsq⟩
    · have hb : (decide (p.1 ∈ rawItems inp) && decide (o1.rowDual p.2 > tolerance)) = false := by
        rcases not_and_or.mp hd with h | h <;> simp [h]
      rw [hb]
      simp only [Bool.false_eq_true, if_false, List.mem_cons]
      constructor
      · rintro (h | ⟨q, hq, hrq, hdq, hsq⟩)
        · exact Or.inl h
        · exact Or.inr ⟨q, Or.inr hq, hrq, hdq, hsq⟩
      · rintro (h | ⟨q, hq | hq, hrq, hdq, hsq⟩)
        · exact Or.inl h
        · subst hq; exact absurd ⟨hrq, hdq⟩ hd
        · exact Or.inr ⟨q, hq, hrq, hdq, hsq⟩

/-- Membership in the pre-fallback hint set: exactly the `"<machine> cap"`
hints of capped machines with positive dual and the `"<item> supply"` hints
of raw items whose balance row has positive dual. -/
theorem mem_preHints (inp : FactoryInput) (o1 : LpOracle) (s : String) :
    s ∈ preHints inp o1
      ↔ (∃ p ∈ (buildPhase1 inp).machineMap,
            tolerance < o1.rowDual p.2 ∧ s = p.1 ++ " cap")
        ∨ (∃ p ∈ (buildPhase1 inp).itemMap,
            p.1 ∈ rawItems inp ∧ tolerance < o1.rowDual p.2 ∧ s = p.1 ++ " supply") := by
  unfold preHints
  rw [mem_supplyHintsFold, mem_machineHintsFold]
  simp only [List.not_mem_nil, false_or]

/-- Under a good Phase-1 status and an unreachable target, `solve_factory`
takes the infeasibility path. -/
theorem solve_factory_infeasible (inp : FactoryInput) (o1 o2 : LpOracle)
    (h1 : o1.status = LpStatus.OPTIMAL ∨ o1.status = LpStatus.FEASIBLE)
    (hlt : o1.varValue Var.tvar < inp.target_rate - tolerance) :
    solve_factory inp o1 o2 = infeasibleJson inp o1 (o1.varValue Var.tvar) := by
  have hn1 : ¬ (o1.status ≠ LpStatus.OPTIMAL ∧ o1.status ≠ LpStatus.FEASIBLE) := by
    rcases h1 with h | h <;> simp [h]
  unfold solve_factory
  rw [if_neg hn1]
  simp only []
  rw [if_pos hlt]

end Factory

/-- C5: whenever Phase 1 solves (OPTIMAL or FEASIBLE) and returns
`max_T < requested_target_rate − ε`, the program emits the infeasibility
output whose `bottleneck_hint` set is harvested from the Phase-1 duals:
it contains `"<machine> cap"` exactly for the capped machines whose machine
row has dual `> ε` and `"<item> supply"` exactly for the raw items whose
balance row has dual `> ε`; when that set is empty the single hint is
"Target rate conflicts with other constraints" if `max_T > ε` and
"Unknown bottleneck, possibly no production path" otherwise. -/
theorem c5_bottleneck_hints (inp : Factory.FactoryInput) (o1 o2 : Factory.LpOracle)
    (h1 : o1.status = Factory.LpStatus.OPTIMAL ∨ o1.status = Factory.LpStatus.FEASIBLE)
    (hlt : o1.varValue Factory.Var.tvar < inp.target_rate - tolerance) :
    (Factory.solve_factory inp o1 o2).getField "status" = some (Json.str "infeasible")
    ∧ (Factory.solve_factory inp o1 o2).getField "max_feasible_target_per_min"
      = some (Json.num (o1.varValue Factory.Var.tvar))
    ∧ (Factory.solve_factory inp o1 o2).getField "bottleneck_hint"
      = some (Json.arr ((Factory.phase1Hints inp o1
          (o1.varValue Factory.Var.tvar)).map Json.str))
    ∧ (∀ s, s ∈ Factory.preHints inp o1
        ↔ (∃ p ∈ (Factory.buildPhase1 inp).machineMap,
              tolerance < o1.rowDual p.2 ∧ s = p.1 ++ " cap")
          ∨ (∃ p ∈ (Factory.buildPhase1 inp).itemMap,
              p.1 ∈ Factory.rawItems inp ∧ tolerance < o1.rowDual p.2
              ∧ s = p.1 ++ " supply"))
    ∧ (Factory.preHints inp o1 ≠ [] →
        Factory.phase1Hints inp o1 (o1.varValue Factory.Var.tvar)
          = Factory.preHints inp o1)
    ∧ (Factory.preHints inp o1 = [] → tolerance < o1.varValue Factory.Var.tvar →
        Factory.phase1Hints inp o1 (o1.varValue Factory.Var.tvar)
          = ["Target rate conflicts with other constraints"])
    ∧ (Factory.preHints inp o1 = [] → ¬ tolerance < o1.varValue Factory.Var.tvar →
        Factory.phase1Hints inp o1 (o1.varValue Factory.Var.tvar)
          = ["Unknown bottleneck, possibly no production path"]) := by
  have hout := Factory.solve_factory_infeasible inp o1 o2 h1 hlt
  refine ⟨?_, ?_, ?_, Factory.mem_preHints inp o1, ?_, ?_, ?_⟩
  · rw [hout]; simp [Factory.infeasibleJson, Json.getField, List.lookup]
  · rw [hout]; simp [Factory.infeasibleJson, Json.getField, List.lookup]
  · rw [hout]; simp [Factory.infeasibleJson, Json.getField, List.lookup]
  · intro hne
    cases hpe : Factory.preHints inp o1 with
    | nil => exact absurd hpe hne
    | cons a t => simp [Factory.phase1Hints, hpe, List.isEmpty]
  · intro he hgt
    unfold Factory.phase1Hints
    rw [he]
    simp [hgt, sortedInsert]
  · intro he hngt
    unfold Factory.phase1Hints
    rw [he]
    simp [hngt, sortedInsert]

/-- C5 witness: the hint harvest evaluated at seed scenario 2 (`c5Inp` with
dual 1 on the `balance_ore` row): the emitted hint set is `["ore supply"]`. -/
theorem c5_witness :
    (Factory.solve_factory Factory.c5Inp Factory.c5O1 Factory.c5O1).getField "status"
      = some (Json.str "infeasible")
    ∧ (Factory.solve_factory Factory.c5Inp Factory.c5O1 Factory.c5O1).getField
        "max_feasible_target_per_min"
      = some (Json.num (Factory.c5O1.varValue Factory.Var.tvar))
    ∧ (Factory.solve_factory Factory.c5Inp Factory.c5O1 Factory.c5O1).getField
        "bottleneck_hint"
      = some (Json.arr ((Factory.phase1Hints Factory.c5Inp Factory.c5O1
          (Factory.c5O1.varValue Factory.Var.tvar)).map Json.str))
    ∧ ("ore supply" ∈ Factory.preHints Factory.c5Inp Factory.c5O1
        ↔ (∃ p ∈ (Factory.buildPhase1 Factory.c5Inp).machineMap,
              tolerance < Factory.c5O1.rowDual p.2 ∧ "ore supply" = p.1 ++ " cap")
          ∨ (∃ p ∈ (Factory.buildPhase1 Factory.c5Inp).itemMap,
              p.1 ∈ Factory.rawItems Factory.c5Inp
              ∧ tolerance < Factory.c5O1.rowDual p.2
              ∧ "ore supply" = p.1 ++ " supply"))
    ∧ (Factory.preHints Factory.c5Inp Factory.c5O1 ≠ [] →
        Factory.phase1Hints Factory.c5Inp Factory.c5O1
            (Factory.c5O1.varValue Factory.Var.tvar)
          = Factory.preHints Factory.c5Inp Factory.c5O1) := by
  have h := c5_bottleneck_hints Factory.c5Inp Factory.c5O1 Factory.c5O1 (Or.inl rfl)
    (by norm_num [Factory.c5O1, Factory.c5Inp, tolerance])
  exact ⟨h.1, h.2.1, h.2.2.1, h.2.2.2.1 "ore supply", h.2.2.2.2.1⟩

namespace Factory

theorem lookup_setCoeffL_tvar (l : List (Var × ℚ)) (n : String) (c : ℚ) :
    (setCoeffL l (Var.recipe n) c).lookup Var.tvar = l.lookup Var.tvar := by
  induction l with
  | nil =>
    have hb : (Var.tvar == Var.recipe n) = false := by
      simp [instBEqOfDecidableEq]
    simp [setCoeffL, List.lookup, hb]
  | cons p t ih =>
    obtain ⟨v1, c1⟩ := p
    simp only [setCoeffL]
    by_cases h : Var.recipe n = v1
    · subst h
      have hb : (Var.tvar == Var.recipe n) = false := by
        simp [instBEqOfDecidableEq]
      simp [List.lookup, hb]
    · rw [if_neg h]
      by_cases h2 : Var.tvar = v1
      · subst h2
        simp [List.lookup]
      · have hb : (Var.tvar == v1) = false := by
          simpa using h2
        simp [List.lookup, hb, ih]

theorem skel_updateRow : ∀ (rows : List Row) (i : ℕ) (n : String) (c : ℚ),
    (updateRow rows i (Var.recipe n) c).map rowSkel = rows.map rowSkel
  | [], _, _, _ => rfl
  | r :: t, 0, n, c => by
    simp [updateRow, rowSkel, Row.setCoeff, lookup_setCoeffL_tvar]
  | r :: t, i + 1, n, c => by
    simp [updateRow, skel_updateRow t i n c]

theorem skel_inFold (n : String) :
    ∀ (bag : List (String × ℚ)) (lp : LP),
      lpSkel (bag.foldl
        (fun lp p =>
          match lp.itemMap.lookup p.1 with
          | some i => { lp with rows := updateRow lp.rows i (Var.recipe n) (-p.2) }
          | none => lp) lp) = lpSkel lp
  | [], _ => rfl
  | p :: bag, lp => by
    rw [List.foldl_cons, skel_inFold n bag]
    cases hm : lp.itemMap.lookup p.1 with
    | none => simp [hm]
    | some i => simp [hm, lpSkel, skel_updateRow]

theorem skel_outFold (n : String) (pm : ℚ) :
    ∀ (bag : List (String × ℚ)) (lp : LP),
      lpSkel (bag.foldl
        (fun lp p =>
          match lp.itemMap.lookup p.1 with
          | some i => { lp with rows := updateRow lp.rows i (Var.recipe n) (p.2 * pm) }
          | none => lp) lp) = lpSkel lp
  | [], _ => rfl
  | p :: bag, lp => by
    rw [List.foldl_cons, skel_outFold n pm bag]
    cases hm : lp.itemMap.lookup p.1 with
    | none => simp [hm]
    | some i => simp [hm, lpSkel, skel_updateRow]

/-- The population loop never changes row names, bounds, `T` coefficients, or
the two lookup maps. -/
theorem lpSkel_populate (b : Bool) : ∀ (rs : List Recipe) (lp : LP),
    lpSkel (populateRows rs lp b) = lpSkel lp
  | [], _ => rfl
  | r :: t, lp => by
    unfold populateRows
    rw [List.foldl_cons]
    have hrec := lpSkel_populate b t
    unfold populateRows at hrec
    rw [hrec]
    have h1 : ∀ lp1 : LP, lpSkel (match lp1.machineMap.lookup r.machine with
        | some i =>
          { lp1 with rows := updateRow lp1.rows i (Var.recipe r.name) r.machine_cost_per_craft }
        | none => lp1) = lpSkel lp1 := by
      intro lp1
      cases hm : lp1.machineMap.lookup r.machine with
      | none => simp [hm]
      | some i => simp [hm, lpSkel, skel_updateRow]
    have h2 : ∀ lp1 : LP, lpSkel (if b then
        { lp1 with objCoeffs := setCoeffL lp1.objCoeffs (Var.recipe r.name) r.machine_cost_per_craft }
      else lp1) = lpSkel lp1 := by
      intro lp1
      split_ifs <;> rfl
    rw [skel_outFold r.name r.prod_mult, skel_inFold r.name, h2, h1]

theorem populate_itemMap (rs : List Recipe) (lp : LP) (b : Bool) :
    (populateRows rs lp b).itemMap = lp.itemMap :=
  congrArg (fun x => x.2.1) (lpSkel_populate b rs lp)

theorem populate_rows_skel (rs : List Recipe) (lp : LP) (b : Bool) :
    (populateRows rs lp b).rows.map rowSkel = lp.rows.map rowSkel :=
  congrArg (fun x => x.1) (lpSkel_populate b rs lp)

theorem lookup_insertReplace_self : ∀ (m : List (String × ℕ)) (k : String) (v : ℕ),
    (insertReplace m k v).lookup k = some v
  | [], k, v => by simp [insertReplace, List.lookup]
  | p :: t, k, v => by
    obtain ⟨k1, v1⟩ := p
    simp only [insertReplace]
    by_cases h : k = k1
    · rw [if_pos h]
      simp [List.lookup]
    · rw [if_neg h]
      have hb : (k == k1) = false := by simpa using h
      simp [List.lookup, hb, lookup_insertReplace_self t k v]

theorem lookup_append_right_of_notin (l1 l2 : List (String × ℕ)) (k : String)
    (h : k ∉ l1.map Prod.fst) : (l1 ++ l2).lookup k = l2.lookup k := by
  induction l1 with
  | nil => rfl
  | cons p t ih =>
    obtain ⟨k1, v1⟩ := p
    simp only [List.map_cons, List.mem_cons] at h
    push_neg at h
    have hb : (k == k1) = false := by simpa using h.1
    simp [List.lookup, hb, ih h.2]

theorem getD_middle {α : Type} : ∀ (A : List α) (x : α) (B : List α) (d : α),
    (A ++ x :: B).getD A.length d = x
  | [], x, B, d => rfl
  | a :: A, x, B, d => by
    simpa using getD_middle A x B d

end Factory

namespace Factory

theorem getD_append_cons {α : Type} (A : List α) (x : α) (B : List α) (d : α) (n : ℕ)
    (h : n = A.length) : (A ++ x :: B).getD n d = x :=
  h ▸ getD_middle A x B d

end Factory

/-- C10: when the target item is also a key of `limits.raw_supply_per_min`,
neither LP phase enforces that item's raw-supply cap.  In Phase 1 the
coefficient map sends the target to the Phase-1 target row (`[0,0]` bounds
with coefficient −1 on `T` — the target was erased from `all_items`, so no
raw-bounded row for it is even created); in Phase 2 the map assignment
redirects the target to the target row pinned to the requested rate, and the
raw row that *was* created stays in the solver without ever receiving
coefficients.  Concretely, on `c10Inp` (target `ore`, cap 50, machine `M`
capped at 2 so that Phase 1 is bounded with `max_T = 2`) the Phase-2 rows are
exactly the coefficient-less orphan raw row, the target row and the machine
row; the unique feasible point `x_r1 = 1` is emitted as status "ok" although
its net draw on `ore` is 99 > 50, and `raw_consumption_per_min` reports
`ore = 0`. -/
theorem c10_raw_target_cap_unenforced (inp : Factory.FactoryInput)
    (ht : inp.target_item ∈ inp.raw_supply.map Prod.fst) :
    ((Factory.buildPhase1 inp).itemMap.lookup inp.target_item
        = some (Factory.allItemsSansTarget inp).length
      ∧ ((Factory.buildPhase1 inp).rows.map Factory.rowSkel).getD
          (Factory.allItemsSansTarget inp).length ("", 0, 0, none)
        = ("balance_" ++ inp.target_item, 0, 0, some (-1))
      ∧ (Factory.buildPhase2 inp).itemMap.lookup inp.target_item
        = some ((Factory.intermediateItems inp).length + (Factory.rawItems inp).length)
      ∧ ((Factory.buildPhase2 inp).rows.map Factory.rowSkel).getD
          ((Factory.intermediateItems inp).length + (Factory.rawItems inp).length)
          ("", 0, 0, none)
        = ("balance_" ++ inp.target_item, inp.target_rate, inp.target_rate, none)
      ∧ ("balance_" ++ inp.target_item, -(Factory.lookupQ inp.raw_supply inp.target_item),
            0, none)
          ∈ (Factory.buildPhase2 inp).rows.map Factory.rowSkel)
    ∧ ((Factory.buildPhase2 Factory.c10Inp).rows
        = [⟨"balance_ore", -50, 0, []⟩,
           ⟨"balance_ore", 1, 1, [(Factory.Var.recipe "r1", 1)]⟩,
           ⟨"cap_M", 0, 2, [(Factory.Var.recipe "r1", 1)]⟩]
      ∧ Factory.lpFeasible (Factory.buildPhase2 Factory.c10Inp) Factory.c10x
      ∧ (Factory.solve_factory Factory.c10Inp Factory.c10O1 Factory.c10O2).getField "status"
        = some (Json.str "ok")
      ∧ (Factory.solve_factory Factory.c10Inp Factory.c10O1 Factory.c10O2).getField
          "raw_consumption_per_min" = some (Json.obj [("ore", Json.num 0)])
      ∧ Factory.specBalance Factory.c10Inp
          (fun n => Factory.c10x (Factory.Var.recipe n)) "ore" = -99
      ∧ Factory.lookupQ Factory.c10Inp.raw_supply "ore"
        < -(Factory.specBalance Factory.c10Inp
            (fun n => Factory.c10x (Factory.Var.recipe n)) "ore")) := by
  have hrows : (Factory.buildPhase2 Factory.c10Inp).rows
      = [⟨"balance_ore", -50, 0, []⟩,
         ⟨"balance_ore", 1, 1, [(Factory.Var.recipe "r1", 1)]⟩,
         ⟨"cap_M", 0, 2, [(Factory.Var.recipe "r1", 1)]⟩] := by
    simp [Factory.buildPhase2, Factory.intermediateItems, Factory.allItemsSansTarget,
      Factory.allItems, Factory.rawItems, sortedDedup, sortedInsert, Factory.c10Inp,
      Factory.insertReplace, Factory.recipesOf, Factory.mkRecipe, Factory.lookupQ,
      Factory.populateRows, Factory.updateRow, Factory.setCoeffL, Factory.Row.setCoeff,
      List.lookup, List.enum, List.enumFrom]
    norm_num [tolerance]
  have hspec : Factory.specBalance Factory.c10Inp
      (fun n => Factory.c10x (Factory.Var.recipe n)) "ore" = -99 := by
    simp [Factory.specBalance, Factory.recipesOf, Factory.mkRecipe, Factory.c10Inp,
      Factory.c10x, Factory.lookupQ, List.lookup]
    norm_num
  constructor
  · refine ⟨?_, ?_, ?_, ?_, ?_⟩
    · simp only [Factory.buildPhase1]
      rw [Factory.populate_itemMap]
      rw [Factory.lookup_append_right_of_notin]
      · simp [List.lookup, List.length_map]
      · intro hmem
        rw [List.map_map] at hmem
        have hc : (Prod.fst ∘ fun p => (p.2, p.1)) = (Prod.snd : ℕ × String → String) := rfl
        rw [hc, List.enum_map_snd] at hmem
        simp [Factory.allItemsSansTarget, List.mem_filter] at hmem
    · simp only [Factory.buildPhase1]
      rw [Factory.populate_rows_skel]
      rw [List.append_assoc]
      simp only [List.singleton_append, List.map_append, List.map_cons]
      rw [Factory.getD_append_cons]
      · simp [Factory.rowSkel, List.lookup]
      · simp
    · simp only [Factory.buildPhase2]
      rw [Factory.populate_itemMap]
      rw [Factory.lookup_insertReplace_self]
      simp [List.length_map]
    · simp only [Factory.buildPhase2]
      rw [Factory.populate_rows_skel]
      rw [List.append_assoc]
      simp only [List.singleton_append, List.map_append, List.map_cons]
      rw [Factory.getD_append_cons]
      · simp [Factory.rowSkel, List.lookup]
      · simp
    · have hraw : inp.target_item ∈ Factory.rawItems inp :=
        (mem_sortedDedup _ _).mpr ht
      simp only [Factory.buildPhase2]
      rw [Factory.populate_rows_skel]
      simp only [List.map_append, List.mem_append]
      left
      left
      right
      rw [List.map_map, List.mem_map]
      exact ⟨inp.target_item, hraw, by simp [Factory.rowSkel, List.lookup]⟩
  · refine ⟨hrows, ?_, ?_, ?_, hspec, ?_⟩
    · unfold Factory.lpFeasible
      rw [hrows]
      intro r hr
      fin_cases hr <;>
        norm_num [Factory.rowOk, Factory.rowActivity, Factory.c10x]
    · simp [Factory.solve_factory, Factory.c10Inp, Factory.c10O1, Factory.c10O2,
        Factory.okJsonF, Json.getField, List.lookup]
      norm_num [tolerance]
    · simp [Factory.solve_factory, Factory.c10Inp, Factory.c10O1, Factory.c10O2,
        Factory.okJsonF, Json.getField, List.lookup, Factory.qmapJson,
        Factory.rawConsumption, Factory.rawStep, Factory.rawItems, sortedDedup,
        sortedInsert, Factory.buildPhase2, Factory.intermediateItems,
        Factory.allItemsSansTarget, Factory.allItems, Factory.insertReplace,
        Factory.recipesOf, Factory.mkRecipe, Factory.lookupQ, Factory.populateRows,
        Factory.updateRow, Factory.setCoeffL, Factory.Row.setCoeff, Factory.msetQ,
        List.enum, List.enumFrom]
      norm_num [tolerance]
      simp [List.lookup]
    · rw [hspec]
      norm_num [Factory.lookupQ, Factory.c10Inp, List.lookup]

/-- C10 witness: the general Phase-1/Phase-2 conclusions applied at the
concrete raw-target instance `c10Inp`. -/
theorem c10_witness :
    ((Factory.buildPhase1 Factory.c10Inp).itemMap.lookup Factory.c10Inp.target_item
        = some (Factory.allItemsSansTarget Factory.c10Inp).length
      ∧ ((Factory.buildPhase1 Factory.c10Inp).rows.map Factory.rowSkel).getD
          (Factory.allItemsSansTarget Factory.c10Inp).length ("", 0, 0, none)
        = ("balance_" ++ Factory.c10Inp.target_item, 0, 0, some (-1))
      ∧ (Factory.buildPhase2 Factory.c10Inp).itemMap.lookup Factory.c10Inp.target_item
        = some ((Factory.intermediateItems Factory.c10Inp).length
            + (Factory.rawItems Factory.c10Inp).length)
      ∧ ((Factory.buildPhase2 Factory.c10Inp).rows.map Factory.rowSkel).getD
          ((Factory.intermediateItems Factory.c10Inp).length
            + (Factory.rawItems Factory.c10Inp).length)
          ("", 0, 0, none)
        = ("balance_" ++ Factory.c10Inp.target_item, Factory.c10Inp.target_rate,
            Factory.c10Inp.target_rate, none)
      ∧ ("balance_" ++ Factory.c10Inp.target_item,
            -(Factory.lookupQ Factory.c10Inp.raw_supply Factory.c10Inp.target_item), 0, none)
          ∈ (Factory.buildPhase2 Factory.c10Inp).rows.map Factory.rowSkel)
    ∧ ((Factory.buildPhase2 Factory.c10Inp).rows
        = [⟨"balance_ore", -50, 0, []⟩,
           ⟨"balance_ore", 1, 1, [(Factory.Var.recipe "r1", 1)]⟩,
           ⟨"cap_M", 0, 2, [(Factory.Var.recipe "r1", 1)]⟩]
      ∧ Factory.lpFeasible (Factory.buildPhase2 Factory.c10Inp) Factory.c10x
      ∧ (Factory.solve_factory Factory.c10Inp Factory.c10O1 Factory.c10O2).getField "status"
        = some (Json.str "ok")
      ∧ (Factory.solve_factory Factory.c10Inp Factory.c10O1 Factory.c10O2).getField
          "raw_consumption_per_min" = some (Json.obj [("ore", Json.num 0)])
      ∧ Factory.specBalance Factory.c10Inp
          (fun n => Factory.c10x (Factory.Var.recipe n)) "ore" = -99
      ∧ Factory.lookupQ Factory.c10Inp.raw_supply "ore"
        < -(Factory.specBalance Factory.c10Inp
            (fun n => Factory.c10x (Factory.Var.recipe n)) "ore")) :=
  c10_raw_target_cap_unenforced Factory.c10Inp (by simp [Factory.c10Inp])
